import Mathlib

/-!
Verification development for the OpScripts utilities library
(`opscripts/utils/v5.py`).

The development shallowly embeds the parts of the module that the
specification talks about:

* the atomic file replacement protocol (`atomic_replace_file`,
  `back_up_file`, `write_tempfile`) over an explicit POSIX-style
  filesystem model with hard links (paths are directory entries pointing
  to shared inodes);
* the column formatter `format_columns`;
* the hostname validator `is_valid_hostname`.

Python strings are modelled as `List Char` (the source runs on Python 2
byte strings).  The `os.path` functions used by the source
(`split`, `dirname`, `join`, `abspath`/`normpath`) are modelled from
their POSIX reference implementations.
-/

set_option maxHeartbeats 1000000

/-- Python strings, modelled as lists of characters. -/
abbrev Str := List Char

/-! ## Python string helpers -/

/-- Python `s.split(sep)` for a single-character separator: keeps empty
pieces, and `"".split(sep) == [""]`. -/
def pySplitChar (sep : Char) : Str → List Str
  | [] => [[]]
  | c :: cs =>
    let r := pySplitChar sep cs
    if c = sep then [] :: r
    else
      match r with
      | [] => [[c]]
      | l :: ls => (c :: l) :: ls

/-- Python `sep.join(xs)`. -/
def pyJoinSep (sep : Str) : List Str → Str
  | [] => []
  | [x] => x
  | x :: xs => x ++ sep ++ pyJoinSep sep xs

/-- Python `s.lower()` (ASCII, as for Python 2 byte strings). -/
def pyLower (s : Str) : Str :=
  s.map fun c => if 'A' ≤ c ∧ c ≤ 'Z' then Char.ofNat (c.toNat + 32) else c

/-! ## `os.path` (posixpath) model -/

/-- `posixpath.isabs`. -/
def isAbsPath (p : Str) : Bool := ['/'].isPrefixOf p

/-- Strip trailing `'/'` characters (`head.rstrip('/')`). -/
def rstripSlash (s : Str) : Str := (s.reverse.dropWhile fun c => c = '/').reverse

/-- `posixpath.split`: split off everything after the last slash; the head
keeps its trailing slash only when it consists solely of slashes. -/
def pathSplit (p : Str) : Str × Str :=
  let tail := (p.reverse.takeWhile fun c => c ≠ '/').reverse
  let head := p.take (p.length - tail.length)
  let head := if head ≠ [] ∧ head.any (fun c => c ≠ '/') then rstripSlash head else head
  (head, tail)

/-- `posixpath.dirname`. -/
def dirname (p : Str) : Str := (pathSplit p).1

/-- `posixpath.join` for two components. -/
def pathJoin (a b : Str) : Str :=
  if isAbsPath b then b
  else if a = [] ∨ ['/'].isSuffixOf a then a ++ b
  else a ++ '/' :: b

/-- `posixpath.normpath`: collapse empty and `.` components and resolve
`..` components, preserving the POSIX double-slash root special case. -/
def normpath (p : Str) : Str :=
  if p = [] then ['.']
  else
    let initialSlashes : Nat :=
      if isAbsPath p then
        if ['/', '/'].isPrefixOf p ∧ ¬ ['/', '/', '/'].isPrefixOf p then 2 else 1
      else 0
    let comps := pySplitChar '/' p
    let newComps := comps.foldl
      (fun acc comp =>
        if comp = [] ∨ comp = ['.'] then acc
        else if comp ≠ ['.', '.'] ∨ (initialSlashes = 0 ∧ acc = []) ∨
            (acc ≠ [] ∧ acc.getLast? = some ['.', '.']) then acc ++ [comp]
        else if acc ≠ [] then acc.dropLast
        else acc)
      []
    let res := List.replicate initialSlashes '/' ++ pyJoinSep ['/'] newComps
    if res = [] then ['.'] else res

/-- `posixpath.abspath`, with the process working directory passed
explicitly (`os.getcwd()`). -/
def abspath (cwd p : Str) : Str :=
  if isAbsPath p then normpath p else normpath (pathJoin cwd p)

/-! ## Filesystem model

Hard links are modelled explicitly: a filesystem state is a list of
directory entries (absolute path → inode number) together with an inode
table.  Every operation resolves its path argument against the process
working directory first, as the kernel does. -/

/-- File metadata and content, as captured by `os.stat`:
`st_mode` is the full mode word (file type bits plus the 12 permission
bits). -/
structure Inode where
  content : Str
  uid : Nat
  gid : Nat
  mode : Nat
deriving DecidableEq

/-- Process plus filesystem state: working directory, directory entries
(absolute path → inode number), inode table, next fresh inode number, and
the credentials new files are created with. -/
structure Sys where
  cwd : Str
  entries : List (Str × Nat)
  inodes : List (Nat × Inode)
  nextIno : Nat
  procUid : Nat
  procGid : Nat
deriving DecidableEq

/-- Association-list lookup (first match). -/
def alookup {κ : Type} [DecidableEq κ] {β : Type} : List (κ × β) → κ → Option β
  | [], _ => none
  | (k, v) :: rest, a => if a = k then some v else alookup rest a

/-- Remove the first entry with the given key. -/
def aerase {κ : Type} [DecidableEq κ] {β : Type} : List (κ × β) → κ → List (κ × β)
  | [], _ => []
  | (k, v) :: rest, a => if k = a then rest else (k, v) :: aerase rest a

/-- Update every entry with the given key. -/
def aupdate {κ : Type} [DecidableEq κ] {β : Type} (l : List (κ × β)) (a : κ) (f : β → β) :
    List (κ × β) :=
  l.map fun kv => if kv.1 = a then (kv.1, f kv.2) else kv

/-- Resolve a path against the working directory. -/
def resolveP (s : Sys) (p : Str) : Str := abspath s.cwd p

/-- Inode number of the entry at a path, if any. -/
def getIno (s : Sys) (p : Str) : Option Nat := alookup s.entries (resolveP s p)

/-- `os.stat`: metadata of the file at a path, if any. -/
def fsStat (s : Sys) (p : Str) : Option Inode :=
  (getIno s p).bind fun i => alookup s.inodes i

/-- Content of the file at a path, if any. -/
def contentAt (s : Sys) (p : Str) : Option Str := (fsStat s p).map Inode.content

/-- `os.link src dst`: fails (OSError) when `src` does not exist or an
entry already exists at `dst`; otherwise adds a new directory entry for
the same inode. -/
def fsLink (s : Sys) (src dst : Str) : Option Sys :=
  match getIno s src with
  | none => none
  | some i =>
    if (getIno s dst).isSome then none
    else some { s with entries := (resolveP s dst, i) :: s.entries }

/-- `os.unlink p`: fails (OSError) when `p` does not exist; otherwise
removes the directory entry (the inode survives while other links
remain). -/
def fsUnlink (s : Sys) (p : Str) : Option Sys :=
  match getIno s p with
  | none => none
  | some _ => some { s with entries := aerase s.entries (resolveP s p) }

/-- `os.chown p uid gid`. -/
def fsChown (s : Sys) (p : Str) (u g : Nat) : Option Sys :=
  match getIno s p with
  | none => none
  | some i =>
    some { s with inodes := aupdate s.inodes i fun ι => { ι with uid := u, gid := g } }

/-- `os.chmod p m`: replaces the low 12 permission bits of the mode word,
keeping the file type bits. -/
def fsChmod (s : Sys) (p : Str) (m : Nat) : Option Sys :=
  match getIno s p with
  | none => none
  | some i =>
    some { s with inodes := aupdate s.inodes i fun ι => { ι with mode := ι.mode / 4096 * 4096 + m % 4096 } }

/-- Create a fresh regular file (exclusively) with the given content,
mode, and the process credentials. -/
def fsCreate (s : Sys) (p : Str) (content : Str) (mode : Nat) : Option Sys :=
  if (getIno s p).isSome then none
  else
    some { s with
      entries := (resolveP s p, s.nextIno) :: s.entries
      inodes := (s.nextIno, ⟨content, s.procUid, s.procGid, mode⟩) :: s.inodes
      nextIno := s.nextIno + 1 }

/-- Well-formedness of a filesystem state: directory entries have distinct
names, and every allocated inode number is below the allocator cursor. -/
def SysWF (s : Sys) : Prop :=
  (s.entries.map Prod.fst).Nodup ∧
  (∀ kv ∈ s.entries, kv.2 < s.nextIno) ∧
  (∀ kv ∈ s.inodes, kv.1 < s.nextIno)

instance : DecidablePred SysWF := fun s => by unfold SysWF; infer_instance

/-! ## Embedding of the source functions -/

/-- Exception kinds that can escape the embedded functions. -/
inductive Err where
  | oserror
  | typeerror
deriving DecidableEq

/-- `write_tempfile(directory, content)` (source lines 382–389):
`tempfile.mkstemp(dir=directory)` creates a fresh exclusive file with
permission bits `0600` under a collision-resistant name (passed here as
`tmpBase`), the content is written in full, and the full temp path is
returned.  A creation failure is an I/O error (`none`). -/
def write_tempfile (s : Sys) (directory : Str) (tmpBase : Str) (content : Str) :
    Option (Str × Sys) :=
  let file_temp_name := pathJoin directory tmpBase
  match fsCreate s file_temp_name content 33152 with
  | none => none
  | some s' => some (file_temp_name, s')

/-- The default backup suffix `"_orig"`. -/
def origSuffix : Str := ['_', 'o', 'r', 'i', 'g']

/-- `back_up_file(file_path, target_dir=None, suffix="_orig")` (source
lines 118–148): compute the target directory (default: directory of the
absolute form of the path), fail returning `False` (here `none`) when the
filename part is empty, then `os.link` the file to
`target_dir/filename+suffix`, catching `OSError` and returning `False`;
on success return the backup path.  The state is returned alongside. -/
def back_up_file (s : Sys) (file_path : Str) (target_dir : Option Str) (suffix : Str) :
    Option Str × Sys :=
  let target_dir :=
    match target_dir with
    | none => dirname (abspath s.cwd file_path)
    | some d => d
  let filename := (pathSplit file_path).2
  if filename = [] then (none, s)
  else
    let file_backup := pathJoin target_dir (filename ++ suffix)
    match fsLink s file_path file_backup with
    | none => (none, s)
    | some s' => (some file_backup, s')

/-- Source lines 111–115, the success cleanup after the swap-in link:
unlink the temp file, then unlink `file_backup` and return `True`.
`file_backup` may be `False` (`none`) because the source never checks
`back_up_file`'s return value, in which case `os.unlink(False)` raises
`TypeError`.  Returns the outcome and the list of states visited after
the entry state `s6`. -/
def arfCleanup (file_temp_name : Str) (file_backup : Option Str) (s6 : Sys) :
    Except Err Bool × List Sys :=
  match fsUnlink s6 file_temp_name with
  | none => (Except.error Err.oserror, [])
  | some s7 =>
    match file_backup with
    | none => (Except.error Err.typeerror, [s7])
    | some bp =>
      match fsUnlink s7 bp with
      | none => (Except.error Err.oserror, [s7])
      | some s8 => (Except.ok true, [s7, s8])

/-- Source lines 103–109, the swap step: try to link the temp file onto
the vacated original path (an external failure is injected through
`swapFault`; the source catches every exception with a bare `except:`);
on failure, link `file_backup` back and return `False`.  `file_backup`
may be `False` (`none`), in which case `os.link(False, file)` raises
`TypeError`.  Returns the outcome and the list of states visited after
the entry state `s5`. -/
def arfSwap (file file_temp_name : Str) (file_backup : Option Str) (swapFault : Bool)
    (s5 : Sys) : Except Err Bool × List Sys :=
  match (if swapFault then none else fsLink s5 file_temp_name file) with
  | some s6 =>
    let r := arfCleanup file_temp_name file_backup s6
    (r.1, s6 :: r.2)
  | none =>
    match file_backup with
    | none => (Except.error Err.typeerror, [])
    | some bp =>
      match fsLink s5 bp file with
      | none => (Except.error Err.oserror, [])
      | some s6 => (Except.ok false, [s6])

/-- Source lines 99–109: create the backup link (line 100, return value
never checked), unlink the original path (line 102), and run the swap
step.  Returns the outcome and the list of states visited after the entry
state `s3`. -/
def arfBackupSwap (file file_temp_name : Str) (swapFault : Bool) (s3 : Sys) :
    Except Err Bool × List Sys :=
  let bres := back_up_file s3 file none origSuffix
  let file_backup := bres.1
  let s4 := bres.2
  match fsUnlink s4 file with
  | none => (Except.error Err.oserror, [s4])
  | some s5 =>
    let r := arfSwap file file_temp_name file_backup swapFault s5
    (r.1, [s4, s5] ++ r.2)

/-- Source lines 96–97 and onward: copy the snapshotted ownership and
masked permission bits onto the temp file, then proceed to backup and
swap.  Returns the outcome and the list of states visited after the entry
state `s1`. -/
def arfInstall (file file_temp_name : Str) (orig_uid orig_gid orig_perms : Nat)
    (swapFault : Bool) (s1 : Sys) : Except Err Bool × List Sys :=
  match fsChown s1 file_temp_name orig_uid orig_gid with
  | none => (Except.error Err.oserror, [])
  | some s2 =>
    match fsChmod s2 file_temp_name orig_perms with
    | none => (Except.error Err.oserror, [s2])
    | some s3 =>
      let r := arfBackupSwap file file_temp_name swapFault s3
      (r.1, [s2, s3] ++ r.2)

/-- `atomic_replace_file(file, content, follow_symlink=False)` (source
lines 78–115), instrumented to return the ordered list of states visited
(the head is the pre-call state; the last element is the state in which
the function returns or the escaping exception is raised).

Environment inputs that the source obtains from the platform are passed
explicitly: `realFile` is `os.path.realpath(file)` (the model has no
symlink resolution of its own), `tmpBase` is the collision-resistant name
chosen by `tempfile.mkstemp`, and `swapFault` injects an external failure
(race, permissions, cross-device) into the swap-in `os.link` call.

`back_up_file` returns `False` (here `none`) on failure; the source never
checks for that, so `os.link(False, file)` and `os.unlink(False)` are
reached with a boolean argument and raise `TypeError`. -/
def atomic_replace_file (file content : Str) (follow_symlink : Bool)
    (realFile tmpBase : Str) (swapFault : Bool) (s : Sys) :
    Except Err Bool × List Sys :=
  if ¬ follow_symlink = true ∧ abspath s.cwd file ≠ realFile then
    (Except.ok false, [s])
  else
    let file_dir := dirname file
    match fsStat s file with
    | none => (Except.error Err.oserror, [s])
    | some orig_stat =>
      let orig_perms := orig_stat.mode % 512
      let orig_uid := orig_stat.uid
      let orig_gid := orig_stat.gid
      match write_tempfile s file_dir tmpBase content with
      | none => (Except.error Err.oserror, [s])
      | some (file_temp_name, s1) =>
        let r := arfInstall file file_temp_name orig_uid orig_gid orig_perms swapFault s1
        (r.1, [s, s1] ++ r.2)

/-- The state in which `atomic_replace_file` returns or raises. -/
def arfFinal (file content : Str) (follow_symlink : Bool)
    (realFile tmpBase : Str) (swapFault : Bool) (s : Sys) : Sys :=
  (atomic_replace_file file content follow_symlink realFile tmpBase swapFault s).2.getLastD s

/-- The outcome of `atomic_replace_file`: the returned boolean, or the
escaping exception. -/
def arfResult (file content : Str) (follow_symlink : Bool)
    (realFile tmpBase : Str) (swapFault : Bool) (s : Sys) : Except Err Bool :=
  (atomic_replace_file file content follow_symlink realFile tmpBase swapFault s).1

/-! ## Embedding of `format_columns` (source lines 205–226) -/

/-- Python values that can appear as table cells; `pyStr` is `str(...)`. -/
inductive PyVal where
  | str (s : Str)
  | int (n : Int)
deriving DecidableEq

/-- `str(v)`. -/
def pyStr : PyVal → Str
  | .str s => s
  | .int n => (toString n).toList

/-- Length of the tuples produced by `zip(*rows)` (the shortest row;
`zip()` of no arguments is empty). -/
def pyZipLen {α : Type} : List (List α) → Nat
  | [] => 0
  | [r] => r.length
  | r :: rest => min r.length (pyZipLen rest)

/-- `zip(*rows)`: the transpose, truncated to the shortest row. -/
def pyZip {α : Type} (rows : List (List α)) : List (List α) :=
  (List.range (pyZipLen rows)).map fun i => rows.filterMap fun r => r.get? i

/-- `max` of a list of naturals (Python's `max` is applied to non-empty
column lists only). -/
def pyMax (l : List Nat) : Nat := l.foldr max 0

/-- `s.ljust(w)`. -/
def pyLjust (s : Str) (w : Nat) : Str := s ++ List.replicate (w - s.length) ' '

/-- `s.rjust(w)`. -/
def pyRjust (s : Str) (w : Nat) : Str := List.replicate (w - s.length) ' ' ++ s

/-- `s.center(w)`, with CPython's left-margin computation
`left = marg / 2 + (marg & width & 1)`. -/
def pyCenter (s : Str) (w : Nat) : Str :=
  let marg := w - s.length
  let left := marg / 2 + (marg &&& w &&& 1)
  List.replicate left ' ' ++ s ++ List.replicate (marg - left) ' '

/-- One iteration of the formatting loop body (source lines 218–224):
look up the column width, then dispatch on the alignment marker —
`rjust` for `">"`/`"r"`, `center` for `"^"`/`"c"`, `ljust` otherwise
(also when `align` is `None` or empty, i.e. falsy).  Python list
indexing (`widths[i]`, `align[i]`) raises `IndexError` when out of
range, so the embedding returns `none` in that case. -/
def formatCell (widths : List Nat) (align : Option (List Str)) (ic : Nat × PyVal) :
    Option Str := do
  let w ← widths.get? ic.1
  let sv := pyStr ic.2
  match align with
  | some al =>
    if al ≠ [] then do
      let a ← al.get? ic.1
      if pyLower a = ['>'] ∨ pyLower a = ['r'] then pure (pyRjust sv w)
      else if pyLower a = ['^'] ∨ pyLower a = ['c'] then pure (pyCenter sv w)
      else pure (pyLjust sv w)
    else pure (pyLjust sv w)
  | none => pure (pyLjust sv w)

/-- `format_columns(rows, align=None)`: per-column widths are the maxima
of the stringified cell lengths over `zip(*rows)`; each row is formatted
cell by cell and joined with two spaces. -/
def format_columns (rows : List (List PyVal)) (align : Option (List Str)) :
    Option (List Str) :=
  let widths := (pyZip rows).map fun col => pyMax (col.map fun v => (pyStr v).length)
  rows.mapM fun row => do
    let formatted ← row.enum.mapM (formatCell widths align)
    pure (pyJoinSep [' ', ' '] formatted)

/-! ## Embedding of `is_valid_hostname` (source lines 229–262) -/

/-- The character class of `re.compile("[^A-Z\d-]", re.IGNORECASE)`:
true when the character is NOT an ASCII letter, digit, or hyphen. -/
def isDisallowedChar (c : Char) : Bool :=
  !(c.isUpper || c.isLower || c.isDigit || c == '-')

/-- Strip exactly one dot from the right, if present. -/
def stripOneDot (h : Str) : Str :=
  if h.getLast? = some '.' then h.dropLast else h

/-- `re.match(r"[\d.]+$", h)`: one or more digit-or-dot characters from
the start, with `$` matching at the end of the string or just before a
single trailing newline. -/
def reMatchNumDot (h : Str) : Bool :=
  let t := h.takeWhile fun c => c.isDigit || c == '.'
  !t.isEmpty && (t.length == h.length ||
    (t.length + 1 == h.length && h.getLast? == some '\n'))

/-- The per-label checks of the validation loop (source lines 252–261):
between 1 and 63 characters, no leading or trailing hyphen, and no
character matched by the `disallowed` pattern. -/
def hostLabelCheck (label : Str) : Bool :=
  !(label.length == 0 || 63 < label.length) &&
  !(label.head? == some '-' || label.getLast? == some '-') &&
  !(label.any isDisallowedChar)

/-- `is_valid_hostname(hostname)`: strip one trailing dot; reject when
longer than 253 characters or all-numeric (digits and dots); then check
every dot-separated label. -/
def is_valid_hostname (hostname : Str) : Bool :=
  let hostname := stripOneDot hostname
  if hostname.length > 253 then false
  else if reMatchNumDot hostname then false
  else (pySplitChar '.' hostname).all hostLabelCheck

/-- Claim-side hostname predicate, following the specification's words:
each label has between 1 and 63 characters, does not begin or end with a
hyphen, and contains only ASCII letters, digits, and hyphens. -/
def specLabelOK (label : Str) : Bool :=
  decide (1 ≤ label.length) && decide (label.length ≤ 63) &&
  !(label.head? == some '-') && !(label.getLast? == some '-') &&
  label.all fun c => c.isUpper || c.isLower || c.isDigit || c == '-'

/-- Claim-side hostname validity, following the specification's words:
after removing at most one trailing dot, the result is at most 253
characters, is not composed entirely of digits and dots, and every
dot-separated label is well-formed. -/
def spec_valid_hostname (hostname : Str) : Bool :=
  let h := stripOneDot hostname
  decide (h.length ≤ 253) &&
  !(h.all fun c => c.isDigit || c == '.') &&
  (pySplitChar '.' h).all specLabelOK

/-! ## Association-list lemmas -/

theorem alookup_cons_self {κ : Type} [DecidableEq κ] {β : Type} (k : κ) (v : β)
    (l : List (κ × β)) : alookup ((k, v) :: l) k = some v := by
  simp [alookup]

theorem alookup_cons_ne {κ : Type} [DecidableEq κ] {β : Type} {a k : κ} (v : β)
    (l : List (κ × β)) (h : a ≠ k) : alookup ((k, v) :: l) a = alookup l a := by
  simp [alookup, h]

theorem aerase_cons_self {κ : Type} [DecidableEq κ] {β : Type} (k : κ) (v : β)
    (l : List (κ × β)) : aerase ((k, v) :: l) k = l := by
  simp [aerase]

theorem aerase_cons_ne {κ : Type} [DecidableEq κ] {β : Type} {a k : κ} (v : β)
    (l : List (κ × β)) (h : k ≠ a) : aerase ((k, v) :: l) a = (k, v) :: aerase l a := by
  simp [aerase, h]

theorem alookup_aerase_ne {κ : Type} [DecidableEq κ] {β : Type} {a b : κ}
    (l : List (κ × β)) (h : a ≠ b) : alookup (aerase l b) a = alookup l a := by
  induction l with
  | nil => rfl
  | cons kv rest ih =>
    obtain ⟨k, v⟩ := kv
    by_cases hk : k = b
    · subst hk
      rw [aerase_cons_self, alookup_cons_ne v rest h]
    · rw [aerase_cons_ne v rest hk]
      by_cases ha : a = k
      · subst ha; rw [alookup_cons_self, alookup_cons_self]
      · rw [alookup_cons_ne v _ ha, alookup_cons_ne v _ ha, ih]

theorem alookup_aerase_self {κ : Type} [DecidableEq κ] {β : Type} {a : κ}
    (l : List (κ × β)) (h : (l.map Prod.fst).Nodup) : alookup (aerase l a) a = none := by
  induction l with
  | nil => rfl
  | cons kv rest ih =>
    obtain ⟨k, v⟩ := kv
    simp only [List.map_cons, List.nodup_cons] at h
    by_cases hk : k = a
    · subst hk
      rw [aerase_cons_self]
      rcases hl : alookup rest k with _ | w
      · rfl
      · exfalso
        apply h.1
        have : ∀ (m : List (κ × β)), alookup m k = some w → k ∈ m.map Prod.fst := by
          intro m
          induction m with
          | nil => intro hc; simp [alookup] at hc
          | cons kv' rest' ih' =>
            obtain ⟨k', v'⟩ := kv'
            intro hc
            by_cases hkk : k = k'
            · simp [hkk]
            · rw [alookup_cons_ne _ _ hkk] at hc
              simp [ih' hc]
        exact this rest hl
    · rw [aerase_cons_ne v _ hk, alookup_cons_ne v _ (fun hh => hk hh.symm), ih h.2]

theorem aupdate_eq_self {κ : Type} [DecidableEq κ] {β : Type} {a : κ}
    (l : List (κ × β)) (f : β → β) (h : ∀ kv ∈ l, kv.1 ≠ a) : aupdate l a f = l := by
  induction l with
  | nil => rfl
  | cons kv rest ih =>
    simp only [aupdate, List.map_cons]
    rw [if_neg (h kv (by simp))]
    have := ih fun kv' hm => h kv' (by simp [hm])
    simp only [aupdate] at this
    rw [this]

instance {ε α : Type} [DecidableEq ε] [DecidableEq α] : DecidableEq (Except ε α) := fun x y =>
  match x, y with
  | .ok a, .ok b =>
    if h : a = b then isTrue (by rw [h]) else isFalse (fun hc => h (Except.ok.inj hc))
  | .error a, .error b =>
    if h : a = b then isTrue (by rw [h]) else isFalse (fun hc => h (Except.error.inj hc))
  | .ok _, .error _ => isFalse (fun hc => Except.noConfusion hc)
  | .error _, .ok _ => isFalse (fun hc => Except.noConfusion hc)

theorem alookup_mem {κ : Type} [DecidableEq κ] {β : Type} {a : κ} {v : β}
    {l : List (κ × β)} (h : alookup l a = some v) : (a, v) ∈ l := by
  induction l with
  | nil => simp [alookup] at h
  | cons kv rest ih =>
    obtain ⟨k, w⟩ := kv
    by_cases hk : a = k
    · subst hk
      rw [alookup_cons_self] at h
      simp [Option.some_inj.mp h]
    · rw [alookup_cons_ne _ _ hk] at h
      simp [ih h]

theorem aupdate_cons_self {κ : Type} [DecidableEq κ] {β : Type} (k : κ) (v : β)
    (l : List (κ × β)) (f : β → β) :
    aupdate ((k, v) :: l) k f = (k, f v) :: aupdate l k f := by
  simp [aupdate]

/-! ## Trace lemmas for `atomic_replace_file`

Each stage of the protocol is computed on an abstract well-formed state;
together the lemmas give the full trace of any execution in which the
guard passes, the target exists and the temp name is fresh. -/

/-- Swap step, success case with a created backup: the temp file is
linked onto the vacated original path and both scratch links are
removed. -/
theorem arfSwap_ok (s5 : Sys) (file tmp bp : Str) (rF rT rB : Str) (n ino : Nat)
    (R : List (Str × Nat))
    (hent : s5.entries = (rB, ino) :: (rT, n) :: R)
    (hrF : abspath s5.cwd file = rF) (hrT : abspath s5.cwd tmp = rT)
    (hrB : abspath s5.cwd bp = rB)
    (hFT : rF ≠ rT) (hFB : rF ≠ rB) (hTB : rT ≠ rB)
    (hR : alookup R rF = none) :
    arfSwap file tmp (some bp) false s5 =
      (Except.ok true,
        [{ s5 with entries := (rF, n) :: (rB, ino) :: (rT, n) :: R },
         { s5 with entries := (rF, n) :: (rB, ino) :: R },
         { s5 with entries := (rF, n) :: R }]) := by
  simp [arfSwap, arfCleanup, fsLink, fsUnlink, getIno, resolveP, hent, hrF, hrT, hrB,
    alookup, aerase, hFT, hFB, hTB, hFT.symm, hFB.symm, hTB.symm, hR]

/-- Swap step, injected-fault case with a created backup: the backup is
linked back onto the original path and the function returns `False`,
leaving the temp and backup links in place. -/
theorem arfSwap_fault (s5 : Sys) (file tmp bp : Str) (rF rT rB : Str) (n ino : Nat)
    (R : List (Str × Nat))
    (hent : s5.entries = (rB, ino) :: (rT, n) :: R)
    (hrF : abspath s5.cwd file = rF)
    (hrB : abspath s5.cwd bp = rB)
    (hFT : rF ≠ rT) (hFB : rF ≠ rB)
    (hR : alookup R rF = none) :
    arfSwap file tmp (some bp) true s5 =
      (Except.ok false, [{ s5 with entries := (rF, ino) :: (rB, ino) :: (rT, n) :: R }]) := by
  simp [arfSwap, fsLink, getIno, resolveP, hent, hrF, hrB,
    alookup, aerase, hFT, hFB, hFT.symm, hFB.symm, hR]

/-- Swap step when `back_up_file` failed (`file_backup` is `False`) and
the swap-in link succeeds: the cleanup reaches `os.unlink(False)`, which
raises `TypeError` after the original path has already been replaced. -/
theorem arfSwap_none_ok (s5 : Sys) (file tmp : Str) (rF rT : Str) (n : Nat)
    (R : List (Str × Nat))
    (hent : s5.entries = (rT, n) :: R)
    (hrF : abspath s5.cwd file = rF) (hrT : abspath s5.cwd tmp = rT)
    (hFT : rF ≠ rT)
    (hR : alookup R rF = none) :
    arfSwap file tmp none false s5 =
      (Except.error Err.typeerror,
        [{ s5 with entries := (rF, n) :: (rT, n) :: R },
         { s5 with entries := (rF, n) :: R }]) := by
  simp [arfSwap, arfCleanup, fsLink, fsUnlink, getIno, resolveP, hent, hrF, hrT,
    alookup, aerase, hFT, hFT.symm, hR]

/-- Backup-and-unlink stage on backup-success executions, handing over to
the swap step: the backup hard link is created, then the original path is
unlinked. -/
theorem arfBackupSwap_eq (s3 : Sys) (file tmp : Str) (swapFault : Bool)
    (rF rB : Str) (rT : Str) (n ino : Nat) (E : List (Str × Nat))
    (hent : s3.entries = (rT, n) :: E)
    (hrF : abspath s3.cwd file = rF)
    (hrB : abspath s3.cwd
      (pathJoin (dirname rF) ((pathSplit file).2 ++ origSuffix)) = rB)
    (hfn : (pathSplit file).2 ≠ [])
    (hE : alookup E rF = some ino)
    (hBn : alookup E rB = none)
    (hFT : rF ≠ rT) (hTB : rT ≠ rB) (hFB : rF ≠ rB) :
    arfBackupSwap file tmp swapFault s3 =
      (let s4 : Sys := { s3 with entries := (rB, ino) :: (rT, n) :: E }
       let s5 : Sys := { s3 with entries := (rB, ino) :: (rT, n) :: aerase E rF }
       let r := arfSwap file tmp
         (some (pathJoin (dirname rF) ((pathSplit file).2 ++ origSuffix)))
         swapFault s5
       (r.1, [s4, s5] ++ r.2)) := by
  simp [arfBackupSwap, back_up_file, fsLink, fsUnlink, getIno, resolveP,
    hent, hrF, hrB, hfn, hE, hBn, alookup, aerase,
    hFT, hTB, hFB, hFT.symm, hTB.symm, hFB.symm]

/-- Backup-and-unlink stage when a file already exists at the computed
backup path: `back_up_file` returns `False`, which goes unchecked, and
the original path is unlinked anyway. -/
theorem arfBackupSwap_conflict (s3 : Sys) (file tmp : Str) (swapFault : Bool)
    (rF rB : Str) (rT : Str) (n ino bino : Nat) (E : List (Str × Nat))
    (hent : s3.entries = (rT, n) :: E)
    (hrF : abspath s3.cwd file = rF)
    (hrB : abspath s3.cwd
      (pathJoin (dirname rF) ((pathSplit file).2 ++ origSuffix)) = rB)
    (hfn : (pathSplit file).2 ≠ [])
    (hE : alookup E rF = some ino)
    (hBn : alookup E rB = some bino)
    (hFT : rF ≠ rT) (hTB : rT ≠ rB) :
    arfBackupSwap file tmp swapFault s3 =
      (let s5 : Sys := { s3 with entries := (rT, n) :: aerase E rF }
       let r := arfSwap file tmp none swapFault s5
       (r.1, [s3, s5] ++ r.2)) := by
  simp [arfBackupSwap, back_up_file, fsLink, fsUnlink, getIno, resolveP,
    hent, hrF, hrB, hfn, hE, hBn, alookup, aerase, hFT, hFT.symm, hTB, hTB.symm]

/-- Ownership/permission installation stage: `os.chown` and `os.chmod`
are applied to the freshly created temp inode, then control passes to the
backup-and-swap stage. -/
theorem arfInstall_eq (s1 : Sys) (file tmp : Str) (ou og operm : Nat) (swapFault : Bool)
    (rT : Str) (n : Nat) (E : List (Str × Nat)) (I : List (Nat × Inode))
    (cont : Str) (pu pg m0 : Nat)
    (hent : s1.entries = (rT, n) :: E)
    (hitab : s1.inodes = (n, ⟨cont, pu, pg, m0⟩) :: I)
    (hrT : abspath s1.cwd tmp = rT)
    (hupd : ∀ f, aupdate I n f = I)
    (hperm : operm % 4096 = operm) :
    arfInstall file tmp ou og operm swapFault s1 =
      (let s2 : Sys := { s1 with inodes := (n, ⟨cont, ou, og, m0⟩) :: I }
       let s3 : Sys := { s1 with inodes := (n, ⟨cont, ou, og, m0 / 4096 * 4096 + operm⟩) :: I }
       let r := arfBackupSwap file tmp swapFault s3
       (r.1, [s2, s3] ++ r.2)) := by
  simp [arfInstall, fsChown, fsChmod, getIno, resolveP, hent, hitab, hrT,
    alookup, aupdate_cons_self, hupd, hperm]

/-- Entry stage: the guard passes, the original metadata is read, and the
temp file is created with the new content. -/
theorem arf_front_eq (s : Sys) (file content realFile tmpBase : Str)
    (swapFault follow_symlink : Bool) (st : Inode) (ino : Nat)
    (hguard : follow_symlink = true ∨ abspath s.cwd file = realFile)
    (hE : alookup s.entries (abspath s.cwd file) = some ino)
    (hI : alookup s.inodes ino = some st)
    (hT : alookup s.entries (abspath s.cwd (pathJoin (dirname file) tmpBase)) = none) :
    atomic_replace_file file content follow_symlink realFile tmpBase swapFault s =
      (let s1 : Sys := { s with
         entries := (abspath s.cwd (pathJoin (dirname file) tmpBase), s.nextIno) :: s.entries,
         inodes := (s.nextIno, ⟨content, s.procUid, s.procGid, 33152⟩) :: s.inodes,
         nextIno := s.nextIno + 1 }
       let r := arfInstall file (pathJoin (dirname file) tmpBase) st.uid st.gid
         (st.mode % 512) swapFault s1
       (r.1, [s, s1] ++ r.2)) := by
  have hng : ¬ (¬ follow_symlink = true ∧ abspath s.cwd file ≠ realFile) := by
    rcases hguard with h | h
    · exact fun hc => hc.1 h
    · exact fun hc => hc.2 h
  simp only [atomic_replace_file, hng, fsStat, write_tempfile, fsCreate, getIno, resolveP,
    hE, hI, hT]
  simp [hE, hI, hT]

/-- Full run, success case: guard passed, target exists, temp name fresh,
backup path free, no injected fault. -/
theorem arf_run_ok (s : Sys) (file content realFile tmpBase : Str)
    (follow_symlink : Bool) (ino : Nat) (oc : Str) (ou og om : Nat)
    (hguard : follow_symlink = true ∨ abspath s.cwd file = realFile)
    (hE : alookup s.entries (abspath s.cwd file) = some ino)
    (hI : alookup s.inodes ino = some ⟨oc, ou, og, om⟩)
    (hfn : (pathSplit file).2 ≠ [])
    (hT : alookup s.entries (abspath s.cwd (pathJoin (dirname file) tmpBase)) = none)
    (hBn : alookup s.entries (abspath s.cwd (pathJoin (dirname (abspath s.cwd file))
      ((pathSplit file).2 ++ origSuffix))) = none)
    (hTB : abspath s.cwd (pathJoin (dirname file) tmpBase) ≠
      abspath s.cwd (pathJoin (dirname (abspath s.cwd file)) ((pathSplit file).2 ++ origSuffix)))
    (hwf : SysWF s) :
    atomic_replace_file file content follow_symlink realFile tmpBase false s =
      (let rF := abspath s.cwd file
       let rT := abspath s.cwd (pathJoin (dirname file) tmpBase)
       let rB := abspath s.cwd (pathJoin (dirname (abspath s.cwd file))
         ((pathSplit file).2 ++ origSuffix))
       let n := s.nextIno
       let s1 : Sys := { s with entries := (rT, n) :: s.entries,
                                inodes := (n, ⟨content, s.procUid, s.procGid, 33152⟩) :: s.inodes,
                                nextIno := n + 1 }
       let s2 : Sys := { s1 with inodes := (n, ⟨content, ou, og, 33152⟩) :: s.inodes }
       let s3 : Sys := { s1 with inodes := (n, ⟨content, ou, og, 32768 + om % 512⟩) :: s.inodes }
       let s4 : Sys := { s3 with entries := (rB, ino) :: (rT, n) :: s.entries }
       let s5 : Sys := { s3 with entries := (rB, ino) :: (rT, n) :: aerase s.entries rF }
       (Except.ok true, [s, s1, s2, s3, s4, s5,
         { s3 with entries := (rF, n) :: (rB, ino) :: (rT, n) :: aerase s.entries rF },
         { s3 with entries := (rF, n) :: (rB, ino) :: aerase s.entries rF },
         { s3 with entries := (rF, n) :: aerase s.entries rF }])) := by
  obtain ⟨hnodup, hEb, hIb⟩ := hwf
  have hFT : abspath s.cwd file ≠ abspath s.cwd (pathJoin (dirname file) tmpBase) := by
    intro h; rw [h, hT] at hE; exact Option.noConfusion hE
  have hFB : abspath s.cwd file ≠ abspath s.cwd
      (pathJoin (dirname (abspath s.cwd file)) ((pathSplit file).2 ++ origSuffix)) := by
    intro h; rw [h, hBn] at hE; exact Option.noConfusion hE
  have hupd : ∀ f, aupdate s.inodes s.nextIno f = s.inodes := fun f =>
    aupdate_eq_self _ f fun kv hm => Nat.ne_of_lt (hIb kv hm)
  have hperm : om % 512 % 4096 = om % 512 := by omega
  have hR : alookup (aerase s.entries (abspath s.cwd file)) (abspath s.cwd file) = none :=
    alookup_aerase_self _ hnodup
  rw [arf_front_eq s file content realFile tmpBase false follow_symlink ⟨oc, ou, og, om⟩ ino
    hguard hE hI hT]
  simp only [Inode.uid, Inode.gid, Inode.mode]
  rw [arfInstall_eq
    { s with entries := (abspath s.cwd (pathJoin (dirname file) tmpBase), s.nextIno) :: s.entries,
             inodes := (s.nextIno, ⟨content, s.procUid, s.procGid, 33152⟩) :: s.inodes,
             nextIno := s.nextIno + 1 }
    file (pathJoin (dirname file) tmpBase) ou og (om % 512) false
    (abspath s.cwd (pathJoin (dirname file) tmpBase)) s.nextIno s.entries s.inodes
    content s.procUid s.procGid 33152 rfl rfl rfl hupd hperm]
  dsimp only
  rw [arfBackupSwap_eq
    { s with entries := (abspath s.cwd (pathJoin (dirname file) tmpBase), s.nextIno) :: s.entries,
             inodes := (s.nextIno, ⟨content, ou, og, 33152 / 4096 * 4096 + om % 512⟩) :: s.inodes,
             nextIno := s.nextIno + 1 }
    file (pathJoin (dirname file) tmpBase) false
    (abspath s.cwd file)
    (abspath s.cwd (pathJoin (dirname (abspath s.cwd file)) ((pathSplit file).2 ++ origSuffix)))
    (abspath s.cwd (pathJoin (dirname file) tmpBase)) s.nextIno ino s.entries
    rfl rfl rfl hfn hE hBn hFT hTB hFB]
  dsimp only
  rw [arfSwap_ok
    { s with entries := (abspath s.cwd (pathJoin (dirname (abspath s.cwd file))
                ((pathSplit file).2 ++ origSuffix)), ino) ::
              (abspath s.cwd (pathJoin (dirname file) tmpBase), s.nextIno) ::
              aerase s.entries (abspath s.cwd file),
             inodes := (s.nextIno, ⟨content, ou, og, 33152 / 4096 * 4096 + om % 512⟩) :: s.inodes,
             nextIno := s.nextIno + 1 }
    file (pathJoin (dirname file) tmpBase)
    (pathJoin (dirname (abspath s.cwd file)) ((pathSplit file).2 ++ origSuffix))
    (abspath s.cwd file)
    (abspath s.cwd (pathJoin (dirname file) tmpBase))
    (abspath s.cwd (pathJoin (dirname (abspath s.cwd file)) ((pathSplit file).2 ++ origSuffix)))
    s.nextIno ino (aerase s.entries (abspath s.cwd file))
    rfl rfl rfl rfl hFT hFB hTB hR]
  simp

/-- Full run, injected swap-fault case: guard passed, target exists, temp
name fresh, backup path free, swap-in link fails; the backup is linked
back and `False` is returned, with temp and backup links left behind. -/
theorem arf_run_fault (s : Sys) (file content realFile tmpBase : Str)
    (follow_symlink : Bool) (ino : Nat) (oc : Str) (ou og om : Nat)
    (hguard : follow_symlink = true ∨ abspath s.cwd file = realFile)
    (hE : alookup s.entries (abspath s.cwd file) = some ino)
    (hI : alookup s.inodes ino = some ⟨oc, ou, og, om⟩)
    (hfn : (pathSplit file).2 ≠ [])
    (hT : alookup s.entries (abspath s.cwd (pathJoin (dirname file) tmpBase)) = none)
    (hBn : alookup s.entries (abspath s.cwd (pathJoin (dirname (abspath s.cwd file))
      ((pathSplit file).2 ++ origSuffix))) = none)
    (hTB : abspath s.cwd (pathJoin (dirname file) tmpBase) ≠
      abspath s.cwd (pathJoin (dirname (abspath s.cwd file)) ((pathSplit file).2 ++ origSuffix)))
    (hwf : SysWF s) :
    atomic_replace_file file content follow_symlink realFile tmpBase true s =
      (let rF := abspath s.cwd file
       let rT := abspath s.cwd (pathJoin (dirname file) tmpBase)
       let rB := abspath s.cwd (pathJoin (dirname (abspath s.cwd file))
         ((pathSplit file).2 ++ origSuffix))
       let n := s.nextIno
       let s1 : Sys := { s with entries := (rT, n) :: s.entries,
                                inodes := (n, ⟨content, s.procUid, s.procGid, 33152⟩) :: s.inodes,
                                nextIno := n + 1 }
       let s2 : Sys := { s1 with inodes := (n, ⟨content, ou, og, 33152⟩) :: s.inodes }
       let s3 : Sys := { s1 with inodes := (n, ⟨content, ou, og, 32768 + om % 512⟩) :: s.inodes }
       let s4 : Sys := { s3 with entries := (rB, ino) :: (rT, n) :: s.entries }
       let s5 : Sys := { s3 with entries := (rB, ino) :: (rT, n) :: aerase s.entries rF }
       (Except.ok false, [s, s1, s2, s3, s4, s5,
         { s3 with entries := (rF, ino) :: (rB, ino) :: (rT, n) :: aerase s.entries rF }])) := by
  obtain ⟨hnodup, hEb, hIb⟩ := hwf
  have hFT : abspath s.cwd file ≠ abspath s.cwd (pathJoin (dirname file) tmpBase) := by
    intro h; rw [h, hT] at hE; exact Option.noConfusion hE
  have hFB : abspath s.cwd file ≠ abspath s.cwd
      (pathJoin (dirname (abspath s.cwd file)) ((pathSplit file).2 ++ origSuffix)) := by
    intro h; rw [h, hBn] at hE; exact Option.noConfusion hE
  have hupd : ∀ f, aupdate s.inodes s.nextIno f = s.inodes := fun f =>
    aupdate_eq_self _ f fun kv hm => Nat.ne_of_lt (hIb kv hm)
  have hperm : om % 512 % 4096 = om % 512 := by omega
  have hR : alookup (aerase s.entries (abspath s.cwd file)) (abspath s.cwd file) = none :=
    alookup_aerase_self _ hnodup
  rw [arf_front_eq s file content realFile tmpBase true follow_symlink ⟨oc, ou, og, om⟩ ino
    hguard hE hI hT]
  simp only [Inode.uid, Inode.gid, Inode.mode]
  rw [arfInstall_eq
    { s with entries := (abspath s.cwd (pathJoin (dirname file) tmpBase), s.nextIno) :: s.entries,
             inodes := (s.nextIno, ⟨content, s.procUid, s.procGid, 33152⟩) :: s.inodes,
             nextIno := s.nextIno + 1 }
    file (pathJoin (dirname file) tmpBase) ou og (om % 512) true
    (abspath s.cwd (pathJoin (dirname file) tmpBase)) s.nextIno s.entries s.inodes
    content s.procUid s.procGid 33152 rfl rfl rfl hupd hperm]
  dsimp only
  rw [arfBackupSwap_eq
    { s with entries := (abspath s.cwd (pathJoin (dirname file) tmpBase), s.nextIno) :: s.entries,
             inodes := (s.nextIno, ⟨content, ou, og, 33152 / 4096 * 4096 + om % 512⟩) :: s.inodes,
             nextIno := s.nextIno + 1 }
    file (pathJoin (dirname file) tmpBase) true
    (abspath s.cwd file)
    (abspath s.cwd (pathJoin (dirname (abspath s.cwd file)) ((pathSplit file).2 ++ origSuffix)))
    (abspath s.cwd (pathJoin (dirname file) tmpBase)) s.nextIno ino s.entries
    rfl rfl rfl hfn hE hBn hFT hTB hFB]
  dsimp only
  rw [arfSwap_fault
    { s with entries := (abspath s.cwd (pathJoin (dirname (abspath s.cwd file))
                ((pathSplit file).2 ++ origSuffix)), ino) ::
              (abspath s.cwd (pathJoin (dirname file) tmpBase), s.nextIno) ::
              aerase s.entries (abspath s.cwd file),
             inodes := (s.nextIno, ⟨content, ou, og, 33152 / 4096 * 4096 + om % 512⟩) :: s.inodes,
             nextIno := s.nextIno + 1 }
    file (pathJoin (dirname file) tmpBase)
    (pathJoin (dirname (abspath s.cwd file)) ((pathSplit file).2 ++ origSuffix))
    (abspath s.cwd file)
    (abspath s.cwd (pathJoin (dirname file) tmpBase))
    (abspath s.cwd (pathJoin (dirname (abspath s.cwd file)) ((pathSplit file).2 ++ origSuffix)))
    s.nextIno ino (aerase s.entries (abspath s.cwd file))
    rfl rfl rfl hFT hFB hR]
  simp

/-- Full run, backup-conflict case: a file already exists at the computed
backup path, `back_up_file` returns `False` unchecked, the original is
unlinked and replaced anyway, and cleanup raises `TypeError` at
`os.unlink(False)`. -/
theorem arf_run_conflict (s : Sys) (file content realFile tmpBase : Str)
    (follow_symlink : Bool) (ino bino : Nat) (oc : Str) (ou og om : Nat)
    (hguard : follow_symlink = true ∨ abspath s.cwd file = realFile)
    (hE : alookup s.entries (abspath s.cwd file) = some ino)
    (hI : alookup s.inodes ino = some ⟨oc, ou, og, om⟩)
    (hfn : (pathSplit file).2 ≠ [])
    (hT : alookup s.entries (abspath s.cwd (pathJoin (dirname file) tmpBase)) = none)
    (hBc : alookup s.entries (abspath s.cwd (pathJoin (dirname (abspath s.cwd file))
      ((pathSplit file).2 ++ origSuffix))) = some bino)
    (hTB : abspath s.cwd (pathJoin (dirname file) tmpBase) ≠
      abspath s.cwd (pathJoin (dirname (abspath s.cwd file)) ((pathSplit file).2 ++ origSuffix)))
    (hwf : SysWF s) :
    atomic_replace_file file content follow_symlink realFile tmpBase false s =
      (let rF := abspath s.cwd file
       let rT := abspath s.cwd (pathJoin (dirname file) tmpBase)
       let n := s.nextIno
       let s1 : Sys := { s with entries := (rT, n) :: s.entries,
                                inodes := (n, ⟨content, s.procUid, s.procGid, 33152⟩) :: s.inodes,
                                nextIno := n + 1 }
       let s2 : Sys := { s1 with inodes := (n, ⟨content, ou, og, 33152⟩) :: s.inodes }
       let s3 : Sys := { s1 with inodes := (n, ⟨content, ou, og, 32768 + om % 512⟩) :: s.inodes }
       let s5 : Sys := { s3 with entries := (rT, n) :: aerase s.entries rF }
       (Except.error Err.typeerror, [s, s1, s2, s3, s3, s5,
         { s3 with entries := (rF, n) :: (rT, n) :: aerase s.entries rF },
         { s3 with entries := (rF, n) :: aerase s.entries rF }])) := by
  obtain ⟨hnodup, hEb, hIb⟩ := hwf
  have hFT : abspath s.cwd file ≠ abspath s.cwd (pathJoin (dirname file) tmpBase) := by
    intro h; rw [h, hT] at hE; exact Option.noConfusion hE
  have hupd : ∀ f, aupdate s.inodes s.nextIno f = s.inodes := fun f =>
    aupdate_eq_self _ f fun kv hm => Nat.ne_of_lt (hIb kv hm)
  have hperm : om % 512 % 4096 = om % 512 := by omega
  have hR : alookup (aerase s.entries (abspath s.cwd file)) (abspath s.cwd file) = none :=
    alookup_aerase_self _ hnodup
  rw [arf_front_eq s file content realFile tmpBase false follow_symlink ⟨oc, ou, og, om⟩ ino
    hguard hE hI hT]
  simp only [Inode.uid, Inode.gid, Inode.mode]
  rw [arfInstall_eq
    { s with entries := (abspath s.cwd (pathJoin (dirname file) tmpBase), s.nextIno) :: s.entries,
             inodes := (s.nextIno, ⟨content, s.procUid, s.procGid, 33152⟩) :: s.inodes,
             nextIno := s.nextIno + 1 }
    file (pathJoin (dirname file) tmpBase) ou og (om % 512) false
    (abspath s.cwd (pathJoin (dirname file) tmpBase)) s.nextIno s.entries s.inodes
    content s.procUid s.procGid 33152 rfl rfl rfl hupd hperm]
  dsimp only
  rw [arfBackupSwap_conflict
    { s with entries := (abspath s.cwd (pathJoin (dirname file) tmpBase), s.nextIno) :: s.entries,
             inodes := (s.nextIno, ⟨content, ou, og, 33152 / 4096 * 4096 + om % 512⟩) :: s.inodes,
             nextIno := s.nextIno + 1 }
    file (pathJoin (dirname file) tmpBase) false
    (abspath s.cwd file)
    (abspath s.cwd (pathJoin (dirname (abspath s.cwd file)) ((pathSplit file).2 ++ origSuffix)))
    (abspath s.cwd (pathJoin (dirname file) tmpBase)) s.nextIno ino bino s.entries
    rfl rfl rfl hfn hE hBc hFT hTB]
  dsimp only
  rw [arfSwap_none_ok
    { s with entries := (abspath s.cwd (pathJoin (dirname file) tmpBase), s.nextIno) ::
              aerase s.entries (abspath s.cwd file),
             inodes := (s.nextIno, ⟨content, ou, og, 33152 / 4096 * 4096 + om % 512⟩) :: s.inodes,
             nextIno := s.nextIno + 1 }
    file (pathJoin (dirname file) tmpBase)
    (abspath s.cwd file)
    (abspath s.cwd (pathJoin (dirname file) tmpBase))
    s.nextIno (aerase s.entries (abspath s.cwd file))
    rfl rfl rfl hFT hR]
  simp

/-! ## Claims -/

/-- C5: for every path that is a symlink (its absolute form differs from
its fully resolved symlink-free form) and `follow_symlink = False`,
`atomic_replace_file` returns failure (`False`) before attempting any
mutation: the trace is the single unchanged pre-call state, so both the
symlink and its target content are byte-identical to before the call. -/
theorem C5_symlink_guard (s : Sys) (file content realFile tmpBase : Str) (swapFault : Bool)
    (hsym : abspath s.cwd file ≠ realFile) :
    atomic_replace_file file content false realFile tmpBase swapFault s =
      (Except.ok false, [s]) := by
  simp [atomic_replace_file, hsym]

/-- C5 witness: a concrete symlink path is rejected with the state
untouched. -/
theorem C5_symlink_guard_witness :
    abspath "/".toList "/d/sym".toList ≠ "/d/f".toList ∧
    atomic_replace_file "/d/sym".toList "new".toList false "/d/f".toList "t1".toList false
        ⟨"/".toList, [("/d/f".toList, 0)], [(0, ⟨"old".toList, 10, 20, 33188⟩)], 1, 0, 0⟩ =
      (Except.ok false,
        [⟨"/".toList, [("/d/f".toList, 0)], [(0, ⟨"old".toList, 10, 20, 33188⟩)], 1, 0, 0⟩]) :=
  ⟨by decide, C5_symlink_guard _ _ _ _ _ _ (by decide)⟩

/-- C3 counterexample: a call in which the swap-in link fails after the
original was unlinked, but which does NOT roll back: a file already
existed at the computed backup path, so `back_up_file` returned `False`;
the rollback step `os.link(False, file)` raises `TypeError` instead of
returning failure, and afterwards no entry exists at the original path at
all (its pre-call content `"old"` is not restored). -/
theorem C3_counterexample :
    contentAt ⟨"/".toList, [("/d/f".toList, 0), ("/d/f_orig".toList, 5)],
        [(0, ⟨"old".toList, 10, 20, 33188⟩), (5, ⟨"bak".toList, 0, 0, 33188⟩)], 6, 0, 0⟩
      "/d/f".toList = some "old".toList ∧
    arfResult "/d/f".toList "new".toList false "/d/f".toList "t1".toList true
        ⟨"/".toList, [("/d/f".toList, 0), ("/d/f_orig".toList, 5)],
          [(0, ⟨"old".toList, 10, 20, 33188⟩), (5, ⟨"bak".toList, 0, 0, 33188⟩)], 6, 0, 0⟩ =
      Except.error Err.typeerror ∧
    getIno (arfFinal "/d/f".toList "new".toList false "/d/f".toList "t1".toList true
        ⟨"/".toList, [("/d/f".toList, 0), ("/d/f_orig".toList, 5)],
          [(0, ⟨"old".toList, 10, 20, 33188⟩), (5, ⟨"bak".toList, 0, 0, 33188⟩)], 6, 0, 0⟩)
      "/d/f".toList = none := by decide

/-- C3 amended: for every call in which the swap-in link fails after the
original was unlinked AND the backup link had been successfully created
(no file pre-existed at the computed backup path), the function links the
backup back onto the original path and returns failure (`False`), and
after the call the original path exists with content byte-identical to
the pre-call content. -/
theorem C3_rollback (s : Sys) (file content realFile tmpBase : Str)
    (follow_symlink : Bool) (ino : Nat) (oc : Str) (ou og om : Nat)
    (hguard : follow_symlink = true ∨ abspath s.cwd file = realFile)
    (hE : alookup s.entries (abspath s.cwd file) = some ino)
    (hI : alookup s.inodes ino = some ⟨oc, ou, og, om⟩)
    (hfn : (pathSplit file).2 ≠ [])
    (hT : alookup s.entries (abspath s.cwd (pathJoin (dirname file) tmpBase)) = none)
    (hBn : alookup s.entries (abspath s.cwd (pathJoin (dirname (abspath s.cwd file))
      ((pathSplit file).2 ++ origSuffix))) = none)
    (hTB : abspath s.cwd (pathJoin (dirname file) tmpBase) ≠
      abspath s.cwd (pathJoin (dirname (abspath s.cwd file)) ((pathSplit file).2 ++ origSuffix)))
    (hwf : SysWF s) :
    arfResult file content follow_symlink realFile tmpBase true s = Except.ok false ∧
    contentAt (arfFinal file content follow_symlink realFile tmpBase true s) file = some oc := by
  have hino : ino ≠ s.nextIno := Nat.ne_of_lt (hwf.2.1 _ (alookup_mem hE))
  have h := arf_run_fault s file content realFile tmpBase follow_symlink ino oc ou og om
    hguard hE hI hfn hT hBn hTB hwf
  refine ⟨?_, ?_⟩
  · simp [arfResult, h]
  · simp [arfFinal, h, contentAt, fsStat, getIno, resolveP, alookup, hino, hI]

/-- C3 witness: a concrete rollback run restores the original content. -/
theorem C3_rollback_witness :
    arfResult "/d/f".toList "new".toList false "/d/f".toList "t1".toList true
        ⟨"/".toList, [("/d/f".toList, 0)], [(0, ⟨"old".toList, 10, 20, 33188⟩)], 1, 0, 0⟩ =
      Except.ok false ∧
    contentAt (arfFinal "/d/f".toList "new".toList false "/d/f".toList "t1".toList true
        ⟨"/".toList, [("/d/f".toList, 0)], [(0, ⟨"old".toList, 10, 20, 33188⟩)], 1, 0, 0⟩)
      "/d/f".toList = some "old".toList :=
  C3_rollback ⟨"/".toList, [("/d/f".toList, 0)], [(0, ⟨"old".toList, 10, 20, 33188⟩)], 1, 0, 0⟩
    "/d/f".toList "new".toList "/d/f".toList "t1".toList false 0 "old".toList 10 20 33188
    (by decide) (by decide) (by decide) (by decide)
    (by decide) (by decide) (by decide) (by decide)

/-- C4 counterexample: a successful replace on a file with the setuid bit
set (mode `0o104755`).  The snapshot masks with `0o777` (9 bits), not the
12-bit range: the low 12 bits of the result are `0o755` (493) while the
original's were `0o4755` (2541), so the "low 12 bits" are not preserved. -/
theorem C4_counterexample :
    arfResult "/d/f".toList "new".toList false "/d/f".toList "t1".toList false
        ⟨"/".toList, [("/d/f".toList, 0)], [(0, ⟨"old".toList, 10, 20, 35309⟩)], 1, 0, 0⟩ =
      Except.ok true ∧
    (fsStat ⟨"/".toList, [("/d/f".toList, 0)], [(0, ⟨"old".toList, 10, 20, 35309⟩)], 1, 0, 0⟩
        "/d/f".toList).map (fun ι => ι.mode % 4096) = some 2541 ∧
    (fsStat (arfFinal "/d/f".toList "new".toList false "/d/f".toList "t1".toList false
        ⟨"/".toList, [("/d/f".toList, 0)], [(0, ⟨"old".toList, 10, 20, 35309⟩)], 1, 0, 0⟩)
        "/d/f".toList).map (fun ι => ι.mode % 4096) = some 493 := by decide

/-- C4 amended: for every successful call to `atomic_replace_file`, the
target's owner uid and gid equal their pre-call values and its content
equals the newly supplied content exactly; the permission bits are
preserved only in the low NINE bits (the `0o777` mask the snapshot
applies): the low 12 bits of the resulting mode equal the low 9 bits of
the original mode, so setuid/setgid/sticky bits are dropped. -/
theorem C4_success_preserves (s : Sys) (file content realFile tmpBase : Str)
    (follow_symlink : Bool) (ino : Nat) (oc : Str) (ou og om : Nat)
    (hguard : follow_symlink = true ∨ abspath s.cwd file = realFile)
    (hE : alookup s.entries (abspath s.cwd file) = some ino)
    (hI : alookup s.inodes ino = some ⟨oc, ou, og, om⟩)
    (hfn : (pathSplit file).2 ≠ [])
    (hT : alookup s.entries (abspath s.cwd (pathJoin (dirname file) tmpBase)) = none)
    (hBn : alookup s.entries (abspath s.cwd (pathJoin (dirname (abspath s.cwd file))
      ((pathSplit file).2 ++ origSuffix))) = none)
    (hTB : abspath s.cwd (pathJoin (dirname file) tmpBase) ≠
      abspath s.cwd (pathJoin (dirname (abspath s.cwd file)) ((pathSplit file).2 ++ origSuffix)))
    (hwf : SysWF s) :
    arfResult file content follow_symlink realFile tmpBase false s = Except.ok true ∧
    ∃ ι, fsStat (arfFinal file content follow_symlink realFile tmpBase false s) file = some ι ∧
      ι.uid = ou ∧ ι.gid = og ∧ ι.content = content ∧ ι.mode % 4096 = om % 512 := by
  have h := arf_run_ok s file content realFile tmpBase follow_symlink ino oc ou og om
    hguard hE hI hfn hT hBn hTB hwf
  refine ⟨by simp [arfResult, h], ⟨content, ou, og, 32768 + om % 512⟩, ?_, ?_, ?_, ?_, ?_⟩
  · simp [arfFinal, h, fsStat, getIno, resolveP, alookup]
  · rfl
  · rfl
  · rfl
  · show (32768 + om % 512) % 4096 = om % 512
    omega

/-- C4 witness: a concrete successful replace with mode `0o644`, uid 10,
gid 20 keeps uid/gid and the 9 permission bits and installs the new
content. -/
theorem C4_success_preserves_witness :
    arfResult "/d/f".toList "new".toList false "/d/f".toList "t1".toList false
        ⟨"/".toList, [("/d/f".toList, 0)], [(0, ⟨"old".toList, 10, 20, 33188⟩)], 1, 0, 0⟩ =
      Except.ok true ∧
    ∃ ι, fsStat (arfFinal "/d/f".toList "new".toList false "/d/f".toList "t1".toList false
        ⟨"/".toList, [("/d/f".toList, 0)], [(0, ⟨"old".toList, 10, 20, 33188⟩)], 1, 0, 0⟩)
        "/d/f".toList = some ι ∧
      ι.uid = 10 ∧ ι.gid = 20 ∧ ι.content = "new".toList ∧ ι.mode % 4096 = 33188 % 512 :=
  C4_success_preserves ⟨"/".toList, [("/d/f".toList, 0)],
      [(0, ⟨"old".toList, 10, 20, 33188⟩)], 1, 0, 0⟩
    "/d/f".toList "new".toList "/d/f".toList "t1".toList false 0 "old".toList 10 20 33188
    (by decide) (by decide) (by decide) (by decide)
    (by decide) (by decide) (by decide) (by decide)

/-- C6 counterexample: an execution that proceeds past the symlink guard
and ends with the original path pointing at the rolled-back original
content, yet returns with BOTH the temp file and the backup file still
present in the directory: on swap failure the source returns `False`
immediately after the rollback link, skipping the cleanup. -/
theorem C6_counterexample :
    arfResult "/d/f".toList "new".toList false "/d/f".toList "t1".toList true
        ⟨"/".toList, [("/d/f".toList, 0)], [(0, ⟨"old".toList, 10, 20, 33188⟩)], 1, 0, 0⟩ =
      Except.ok false ∧
    contentAt (arfFinal "/d/f".toList "new".toList false "/d/f".toList "t1".toList true
        ⟨"/".toList, [("/d/f".toList, 0)], [(0, ⟨"old".toList, 10, 20, 33188⟩)], 1, 0, 0⟩)
      "/d/f".toList = some "old".toList ∧
    (getIno (arfFinal "/d/f".toList "new".toList false "/d/f".toList "t1".toList true
        ⟨"/".toList, [("/d/f".toList, 0)], [(0, ⟨"old".toList, 10, 20, 33188⟩)], 1, 0, 0⟩)
      "/d/t1".toList).isSome = true ∧
    (getIno (arfFinal "/d/f".toList "new".toList false "/d/f".toList "t1".toList true
        ⟨"/".toList, [("/d/f".toList, 0)], [(0, ⟨"old".toList, 10, 20, 33188⟩)], 1, 0, 0⟩)
      "/d/f_orig".toList).isSome = true := by decide

/-- C6 amended: on the success path both the temp file and the backup
file are unlinked before the function returns (no entry remains at
either path); on swap failure, however, the function returns right after
the rollback link and BOTH the temp and backup links remain. -/
theorem C6_cleanup (s : Sys) (file content realFile tmpBase : Str)
    (follow_symlink : Bool) (ino : Nat) (oc : Str) (ou og om : Nat)
    (hguard : follow_symlink = true ∨ abspath s.cwd file = realFile)
    (hE : alookup s.entries (abspath s.cwd file) = some ino)
    (hI : alookup s.inodes ino = some ⟨oc, ou, og, om⟩)
    (hfn : (pathSplit file).2 ≠ [])
    (hT : alookup s.entries (abspath s.cwd (pathJoin (dirname file) tmpBase)) = none)
    (hBn : alookup s.entries (abspath s.cwd (pathJoin (dirname (abspath s.cwd file))
      ((pathSplit file).2 ++ origSuffix))) = none)
    (hTB : abspath s.cwd (pathJoin (dirname file) tmpBase) ≠
      abspath s.cwd (pathJoin (dirname (abspath s.cwd file)) ((pathSplit file).2 ++ origSuffix)))
    (hwf : SysWF s) :
    (getIno (arfFinal file content follow_symlink realFile tmpBase false s)
        (pathJoin (dirname file) tmpBase) = none ∧
     getIno (arfFinal file content follow_symlink realFile tmpBase false s)
        (pathJoin (dirname (abspath s.cwd file)) ((pathSplit file).2 ++ origSuffix)) = none) ∧
    ((getIno (arfFinal file content follow_symlink realFile tmpBase true s)
        (pathJoin (dirname file) tmpBase)).isSome = true ∧
     (getIno (arfFinal file content follow_symlink realFile tmpBase true s)
        (pathJoin (dirname (abspath s.cwd file)) ((pathSplit file).2 ++ origSuffix))).isSome = true) := by
  have hFT : abspath s.cwd file ≠ abspath s.cwd (pathJoin (dirname file) tmpBase) := by
    intro h; rw [h, hT] at hE; exact Option.noConfusion hE
  have hFB : abspath s.cwd file ≠ abspath s.cwd
      (pathJoin (dirname (abspath s.cwd file)) ((pathSplit file).2 ++ origSuffix)) := by
    intro h; rw [h, hBn] at hE; exact Option.noConfusion hE
  have hok := arf_run_ok s file content realFile tmpBase follow_symlink ino oc ou og om
    hguard hE hI hfn hT hBn hTB hwf
  have hfa := arf_run_fault s file content realFile tmpBase follow_symlink ino oc ou og om
    hguard hE hI hfn hT hBn hTB hwf
  have heraT : alookup (aerase s.entries (abspath s.cwd file))
      (abspath s.cwd (pathJoin (dirname file) tmpBase)) = none := by
    rw [alookup_aerase_ne _ hFT.symm]; exact hT
  have heraB : alookup (aerase s.entries (abspath s.cwd file))
      (abspath s.cwd (pathJoin (dirname (abspath s.cwd file)) ((pathSplit file).2 ++ origSuffix))) = none := by
    rw [alookup_aerase_ne _ hFB.symm]; exact hBn
  refine ⟨⟨?_, ?_⟩, ?_, ?_⟩
  · simp [arfFinal, hok, getIno, resolveP, alookup, hFT.symm, heraT]
  · simp [arfFinal, hok, getIno, resolveP, alookup, hFB.symm, heraB]
  · simp [arfFinal, hfa, getIno, resolveP, alookup, hFT.symm, hTB]
  · simp [arfFinal, hfa, getIno, resolveP, alookup, hFB.symm]

/-- C6 witness: on a concrete success run no temp or backup entry
remains; on the matching swap-failure run both remain. -/
theorem C6_cleanup_witness :
    (getIno (arfFinal "/d/f".toList "new".toList false "/d/f".toList "t1".toList false
        ⟨"/".toList, [("/d/f".toList, 0)], [(0, ⟨"old".toList, 10, 20, 33188⟩)], 1, 0, 0⟩)
        (pathJoin (dirname "/d/f".toList) "t1".toList) = none ∧
     getIno (arfFinal "/d/f".toList "new".toList false "/d/f".toList "t1".toList false
        ⟨"/".toList, [("/d/f".toList, 0)], [(0, ⟨"old".toList, 10, 20, 33188⟩)], 1, 0, 0⟩)
        (pathJoin (dirname (abspath "/".toList "/d/f".toList))
          ((pathSplit "/d/f".toList).2 ++ origSuffix)) = none) ∧
    ((getIno (arfFinal "/d/f".toList "new".toList false "/d/f".toList "t1".toList true
        ⟨"/".toList, [("/d/f".toList, 0)], [(0, ⟨"old".toList, 10, 20, 33188⟩)], 1, 0, 0⟩)
        (pathJoin (dirname "/d/f".toList) "t1".toList)).isSome = true ∧
     (getIno (arfFinal "/d/f".toList "new".toList false "/d/f".toList "t1".toList true
        ⟨"/".toList, [("/d/f".toList, 0)], [(0, ⟨"old".toList, 10, 20, 33188⟩)], 1, 0, 0⟩)
        (pathJoin (dirname (abspath "/".toList "/d/f".toList))
          ((pathSplit "/d/f".toList).2 ++ origSuffix))).isSome = true) :=
  C6_cleanup ⟨"/".toList, [("/d/f".toList, 0)], [(0, ⟨"old".toList, 10, 20, 33188⟩)], 1, 0, 0⟩
    "/d/f".toList "new".toList "/d/f".toList "t1".toList false 0 "old".toList 10 20 33188
    (by decide) (by decide) (by decide) (by decide)
    (by decide) (by decide) (by decide) (by decide)

/-- C1 (code bug): with a file already present at the computed backup
path, `back_up_file` fails, but `atomic_replace_file` never checks its
return value: the original path IS unlinked (some visited state has no
entry for it), the new content is installed over it, and the call ends in
a `TypeError` at `os.unlink(False)` instead of reporting failure with the
original untouched. -/
theorem C1_backup_conflict_bug :
    (getIno ⟨"/".toList, [("/d/f".toList, 0), ("/d/f_orig".toList, 5)],
        [(0, ⟨"old".toList, 10, 20, 33188⟩), (5, ⟨"bak".toList, 0, 0, 33188⟩)], 6, 0, 0⟩
      (pathJoin (dirname (abspath "/".toList "/d/f".toList))
        ((pathSplit "/d/f".toList).2 ++ origSuffix))).isSome = true ∧
    contentAt ⟨"/".toList, [("/d/f".toList, 0), ("/d/f_orig".toList, 5)],
        [(0, ⟨"old".toList, 10, 20, 33188⟩), (5, ⟨"bak".toList, 0, 0, 33188⟩)], 6, 0, 0⟩
      "/d/f".toList = some "old".toList ∧
    arfResult "/d/f".toList "new".toList false "/d/f".toList "t1".toList false
        ⟨"/".toList, [("/d/f".toList, 0), ("/d/f_orig".toList, 5)],
          [(0, ⟨"old".toList, 10, 20, 33188⟩), (5, ⟨"bak".toList, 0, 0, 33188⟩)], 6, 0, 0⟩ =
      Except.error Err.typeerror ∧
    contentAt (arfFinal "/d/f".toList "new".toList false "/d/f".toList "t1".toList false
        ⟨"/".toList, [("/d/f".toList, 0), ("/d/f_orig".toList, 5)],
          [(0, ⟨"old".toList, 10, 20, 33188⟩), (5, ⟨"bak".toList, 0, 0, 33188⟩)], 6, 0, 0⟩)
      "/d/f".toList = some "new".toList ∧
    ((atomic_replace_file "/d/f".toList "new".toList false "/d/f".toList "t1".toList false
        ⟨"/".toList, [("/d/f".toList, 0), ("/d/f_orig".toList, 5)],
          [(0, ⟨"old".toList, 10, 20, 33188⟩), (5, ⟨"bak".toList, 0, 0, 33188⟩)], 6, 0, 0⟩).2.any
      fun st => (getIno st "/d/f".toList).isNone) = true := by decide

/-- The recoverability condition of the specification's invariant, on one
state of the protocol: the original path still has a directory entry, or
the backup path refers to the original content, or the temp path refers
to the original content. -/
def origRecoverable (st : Sys) (file bp tp : Str) (origContent : Str) : Bool :=
  (getIno st file).isSome || contentAt st bp == some origContent ||
    contentAt st tp == some origContent

/-- C2 counterexample: in the backup-conflict execution, a reachable
intermediate state has the original path unlinked while neither the
backup path (which holds an unrelated pre-existing file) nor the temp
path (which holds the NEW content) refers to the original content: the
live path and every known-valid copy of the original content are
simultaneously destroyed. -/
theorem C2_counterexample :
    ((atomic_replace_file "/d/f".toList "new".toList false "/d/f".toList "t1".toList false
        ⟨"/".toList, [("/d/f".toList, 0), ("/d/f_orig".toList, 5)],
          [(0, ⟨"old".toList, 10, 20, 33188⟩), (5, ⟨"bak".toList, 0, 0, 33188⟩)], 6, 0, 0⟩).2.all
      fun st => origRecoverable st "/d/f".toList
        (pathJoin (dirname (abspath "/".toList "/d/f".toList))
          ((pathSplit "/d/f".toList).2 ++ origSuffix))
        (pathJoin (dirname "/d/f".toList) "t1".toList)
        "old".toList) = false := by decide

/-- C2 amended: in every execution in which the backup link is
successfully created (no file pre-exists at the computed backup path),
every state visited by `atomic_replace_file` — with or without a swap
fault — satisfies the invariant: the original path has an entry, or the
backup or temp path refers to the original content. -/
theorem C2_invariant (s : Sys) (file content realFile tmpBase : Str)
    (follow_symlink swapFault : Bool) (ino : Nat) (oc : Str) (ou og om : Nat)
    (hguard : follow_symlink = true ∨ abspath s.cwd file = realFile)
    (hE : alookup s.entries (abspath s.cwd file) = some ino)
    (hI : alookup s.inodes ino = some ⟨oc, ou, og, om⟩)
    (hfn : (pathSplit file).2 ≠ [])
    (hT : alookup s.entries (abspath s.cwd (pathJoin (dirname file) tmpBase)) = none)
    (hBn : alookup s.entries (abspath s.cwd (pathJoin (dirname (abspath s.cwd file))
      ((pathSplit file).2 ++ origSuffix))) = none)
    (hTB : abspath s.cwd (pathJoin (dirname file) tmpBase) ≠
      abspath s.cwd (pathJoin (dirname (abspath s.cwd file)) ((pathSplit file).2 ++ origSuffix)))
    (hwf : SysWF s) :
    ∀ st ∈ (atomic_replace_file file content follow_symlink realFile tmpBase swapFault s).2,
      origRecoverable st file
        (pathJoin (dirname (abspath s.cwd file)) ((pathSplit file).2 ++ origSuffix))
        (pathJoin (dirname file) tmpBase) oc = true := by
  have hFT : abspath s.cwd file ≠ abspath s.cwd (pathJoin (dirname file) tmpBase) := by
    intro h; rw [h, hT] at hE; exact Option.noConfusion hE
  have hFB : abspath s.cwd file ≠ abspath s.cwd
      (pathJoin (dirname (abspath s.cwd file)) ((pathSplit file).2 ++ origSuffix)) := by
    intro h; rw [h, hBn] at hE; exact Option.noConfusion hE
  have hino : ino ≠ s.nextIno := Nat.ne_of_lt (hwf.2.1 _ (alookup_mem hE))
  cases swapFault
  · rw [arf_run_ok s file content realFile tmpBase follow_symlink ino oc ou og om
      hguard hE hI hfn hT hBn hTB hwf]
    intro st hst
    simp only [List.mem_cons, List.not_mem_nil, or_false] at hst
    rcases hst with rfl | rfl | rfl | rfl | rfl | rfl | rfl | rfl | rfl <;>
      simp [origRecoverable, getIno, contentAt, fsStat, resolveP, alookup,
        hE, hI, hino, hFT, hFB, hTB, hFT.symm, hFB.symm, hTB.symm]
  · rw [arf_run_fault s file content realFile tmpBase follow_symlink ino oc ou og om
      hguard hE hI hfn hT hBn hTB hwf]
    intro st hst
    simp only [List.mem_cons, List.not_mem_nil, or_false] at hst
    rcases hst with rfl | rfl | rfl | rfl | rfl | rfl | rfl <;>
      simp [origRecoverable, getIno, contentAt, fsStat, resolveP, alookup,
        hE, hI, hino, hFT, hFB, hTB, hFT.symm, hFB.symm, hTB.symm]

/-- C2 witness: on a concrete backup-success execution the pre-call state
(a member of the visited-state list) is recoverable. -/
theorem C2_invariant_witness :
    origRecoverable
      ⟨"/".toList, [("/d/f".toList, 0)], [(0, ⟨"old".toList, 10, 20, 33188⟩)], 1, 0, 0⟩
      "/d/f".toList
      (pathJoin (dirname (abspath "/".toList "/d/f".toList))
        ((pathSplit "/d/f".toList).2 ++ origSuffix))
      (pathJoin (dirname "/d/f".toList) "t1".toList) "old".toList = true :=
  C2_invariant ⟨"/".toList, [("/d/f".toList, 0)], [(0, ⟨"old".toList, 10, 20, 33188⟩)], 1, 0, 0⟩
    "/d/f".toList "new".toList "/d/f".toList "t1".toList false false 0 "old".toList 10 20 33188
    (by decide) (by decide) (by decide) (by decide)
    (by decide) (by decide) (by decide) (by decide)
    ⟨"/".toList, [("/d/f".toList, 0)], [(0, ⟨"old".toList, 10, 20, 33188⟩)], 1, 0, 0⟩
    (by decide)

/-- C7 counterexample: the backup-conflict branch is NOT decided locally
and returned as a status: with a file already present at the computed
backup path the call raises `TypeError` (after mutating the target)
instead of returning failure. -/
theorem C7_counterexample :
    (getIno ⟨"/".toList, [("/d/f".toList, 0), ("/d/f_orig".toList, 5)],
        [(0, ⟨"old".toList, 10, 20, 33188⟩), (5, ⟨"bak".toList, 0, 0, 33188⟩)], 6, 0, 0⟩
      (pathJoin (dirname (abspath "/".toList "/d/f".toList))
        ((pathSplit "/d/f".toList).2 ++ origSuffix))).isSome = true ∧
    arfResult "/d/f".toList "new".toList false "/d/f".toList "t1".toList false
        ⟨"/".toList, [("/d/f".toList, 0), ("/d/f_orig".toList, 5)],
          [(0, ⟨"old".toList, 10, 20, 33188⟩), (5, ⟨"bak".toList, 0, 0, 33188⟩)], 6, 0, 0⟩ =
      Except.error Err.typeerror := by decide

/-- C7 amended: symlink-guard rejection and swap failure after a
successful rollback return failure (`False`) as a status without raising;
true underlying I/O failures — missing file at the metadata read, temp
file creation failure — propagate as exceptions; but the backup-conflict
branch is NOT returned as a status: the call raises `TypeError` during
cleanup. -/
theorem C7_propagation (s : Sys) (file content realFile tmpBase : Str)
    (follow_symlink swapFault : Bool) (ino bino tino : Nat) (oc : Str) (ou og om : Nat) :
    (abspath s.cwd file ≠ realFile →
      atomic_replace_file file content false realFile tmpBase swapFault s =
        (Except.ok false, [s])) ∧
    ((follow_symlink = true ∨ abspath s.cwd file = realFile) →
      alookup s.entries (abspath s.cwd file) = some ino →
      alookup s.inodes ino = some ⟨oc, ou, og, om⟩ →
      (pathSplit file).2 ≠ [] →
      alookup s.entries (abspath s.cwd (pathJoin (dirname file) tmpBase)) = none →
      alookup s.entries (abspath s.cwd (pathJoin (dirname (abspath s.cwd file))
        ((pathSplit file).2 ++ origSuffix))) = none →
      abspath s.cwd (pathJoin (dirname file) tmpBase) ≠
        abspath s.cwd (pathJoin (dirname (abspath s.cwd file)) ((pathSplit file).2 ++ origSuffix)) →
      SysWF s →
      arfResult file content follow_symlink realFile tmpBase true s = Except.ok false) ∧
    ((follow_symlink = true ∨ abspath s.cwd file = realFile) →
      alookup s.entries (abspath s.cwd file) = none →
      atomic_replace_file file content follow_symlink realFile tmpBase swapFault s =
        (Except.error Err.oserror, [s])) ∧
    ((follow_symlink = true ∨ abspath s.cwd file = realFile) →
      alookup s.entries (abspath s.cwd file) = some ino →
      alookup s.inodes ino = some ⟨oc, ou, og, om⟩ →
      alookup s.entries (abspath s.cwd (pathJoin (dirname file) tmpBase)) = some tino →
      atomic_replace_file file content follow_symlink realFile tmpBase swapFault s =
        (Except.error Err.oserror, [s])) ∧
    ((follow_symlink = true ∨ abspath s.cwd file = realFile) →
      alookup s.entries (abspath s.cwd file) = some ino →
      alookup s.inodes ino = some ⟨oc, ou, og, om⟩ →
      (pathSplit file).2 ≠ [] →
      alookup s.entries (abspath s.cwd (pathJoin (dirname file) tmpBase)) = none →
      alookup s.entries (abspath s.cwd (pathJoin (dirname (abspath s.cwd file))
        ((pathSplit file).2 ++ origSuffix))) = some bino →
      abspath s.cwd (pathJoin (dirname file) tmpBase) ≠
        abspath s.cwd (pathJoin (dirname (abspath s.cwd file)) ((pathSplit file).2 ++ origSuffix)) →
      SysWF s →
      arfResult file content follow_symlink realFile tmpBase false s =
        Except.error Err.typeerror) := by
  refine ⟨?_, ?_, ?_, ?_, ?_⟩
  · intro hsym
    simp [atomic_replace_file, hsym]
  · intro hguard hE hI hfn hT hBn hTB hwf
    have h := arf_run_fault s file content realFile tmpBase follow_symlink ino oc ou og om
      hguard hE hI hfn hT hBn hTB hwf
    simp [arfResult, h]
  · intro hguard hmiss
    have hng : ¬ (¬ follow_symlink = true ∧ abspath s.cwd file ≠ realFile) := by
      rcases hguard with h | h
      · exact fun hc => hc.1 h
      · exact fun hc => hc.2 h
    simp [atomic_replace_file, hng, fsStat, getIno, resolveP, hmiss]
    intro hf
    rcases hguard with h | h
    · simp [hf] at h
    · exact h
  · intro hguard hE hI hTc
    have hng : ¬ (¬ follow_symlink = true ∧ abspath s.cwd file ≠ realFile) := by
      rcases hguard with h | h
      · exact fun hc => hc.1 h
      · exact fun hc => hc.2 h
    simp [atomic_replace_file, hng, fsStat, write_tempfile, fsCreate, getIno, resolveP,
      hE, hI, hTc]
    intro hf
    rcases hguard with h | h
    · simp [hf] at h
    · exact h
  · intro hguard hE hI hfn hT hBc hTB hwf
    have h := arf_run_conflict s file content realFile tmpBase follow_symlink ino bino oc ou og om
      hguard hE hI hfn hT hBc hTB hwf
    simp [arfResult, h]

/-- C7 witness: every branch of the propagation policy exercised at a
concrete input: guard rejection and rollback return `False`; a missing
target and a temp collision raise OSError; a backup conflict raises
`TypeError`. -/
theorem C7_propagation_witness :
    atomic_replace_file "/d/sym".toList "new".toList false "/d/f".toList "t1".toList false
        ⟨"/".toList, [("/d/f".toList, 0)], [(0, ⟨"old".toList, 10, 20, 33188⟩)], 1, 0, 0⟩ =
      (Except.ok false,
        [⟨"/".toList, [("/d/f".toList, 0)], [(0, ⟨"old".toList, 10, 20, 33188⟩)], 1, 0, 0⟩]) ∧
    arfResult "/d/f".toList "new".toList false "/d/f".toList "t1".toList true
        ⟨"/".toList, [("/d/f".toList, 0)], [(0, ⟨"old".toList, 10, 20, 33188⟩)], 1, 0, 0⟩ =
      Except.ok false ∧
    atomic_replace_file "/d/g".toList "new".toList false "/d/g".toList "t1".toList false
        ⟨"/".toList, [("/d/f".toList, 0)], [(0, ⟨"old".toList, 10, 20, 33188⟩)], 1, 0, 0⟩ =
      (Except.error Err.oserror,
        [⟨"/".toList, [("/d/f".toList, 0)], [(0, ⟨"old".toList, 10, 20, 33188⟩)], 1, 0, 0⟩]) ∧
    atomic_replace_file "/d/f".toList "new".toList false "/d/f".toList "f".toList false
        ⟨"/".toList, [("/d/f".toList, 0)], [(0, ⟨"old".toList, 10, 20, 33188⟩)], 1, 0, 0⟩ =
      (Except.error Err.oserror,
        [⟨"/".toList, [("/d/f".toList, 0)], [(0, ⟨"old".toList, 10, 20, 33188⟩)], 1, 0, 0⟩]) ∧
    arfResult "/d/f".toList "new".toList false "/d/f".toList "t1".toList false
        ⟨"/".toList, [("/d/f".toList, 0), ("/d/f_orig".toList, 5)],
          [(0, ⟨"old".toList, 10, 20, 33188⟩), (5, ⟨"bak".toList, 0, 0, 33188⟩)], 6, 0, 0⟩ =
      Except.error Err.typeerror :=
  ⟨(C7_propagation ⟨"/".toList, [("/d/f".toList, 0)],
        [(0, ⟨"old".toList, 10, 20, 33188⟩)], 1, 0, 0⟩
      "/d/sym".toList "new".toList "/d/f".toList "t1".toList false false 0 0 0
      "old".toList 10 20 33188).1 (by decide),
   (C7_propagation ⟨"/".toList, [("/d/f".toList, 0)],
        [(0, ⟨"old".toList, 10, 20, 33188⟩)], 1, 0, 0⟩
      "/d/f".toList "new".toList "/d/f".toList "t1".toList false false 0 0 0
      "old".toList 10 20 33188).2.1 (by decide) (by decide) (by decide) (by decide)
      (by decide) (by decide) (by decide) (by decide),
   (C7_propagation ⟨"/".toList, [("/d/f".toList, 0)],
        [(0, ⟨"old".toList, 10, 20, 33188⟩)], 1, 0, 0⟩
      "/d/g".toList "new".toList "/d/g".toList "t1".toList false false 0 0 0
      "old".toList 10 20 33188).2.2.1 (by decide) (by decide),
   (C7_propagation ⟨"/".toList, [("/d/f".toList, 0)],
        [(0, ⟨"old".toList, 10, 20, 33188⟩)], 1, 0, 0⟩
      "/d/f".toList "new".toList "/d/f".toList "f".toList false false 0 0 0
      "old".toList 10 20 33188).2.2.2.1 (by decide) (by decide) (by decide) (by decide),
   (C7_propagation ⟨"/".toList, [("/d/f".toList, 0), ("/d/f_orig".toList, 5)],
        [(0, ⟨"old".toList, 10, 20, 33188⟩), (5, ⟨"bak".toList, 0, 0, 33188⟩)], 6, 0, 0⟩
      "/d/f".toList "new".toList "/d/f".toList "t1".toList false false 0 5 0
      "old".toList 10 20 33188).2.2.2.2 (by decide) (by decide) (by decide) (by decide)
      (by decide) (by decide) (by decide) (by decide)⟩

/-- C8 counterexample: for the relative path `"foo"` with working
directory `"/home"`, `back_up_file` computes and returns
`"/home/foo_orig"` — `join(dirname(abspath(path)), filename + suffix)` —
whereas the claim's formula `join(targetDir or dirname(path),
filename + suffix)` yields `"foo_orig"`. -/
theorem C8_counterexample :
    (back_up_file ⟨"/home".toList, [("/home/foo".toList, 0)],
        [(0, ⟨"x".toList, 0, 0, 33188⟩)], 1, 0, 0⟩
      "foo".toList none origSuffix).1 = some "/home/foo_orig".toList ∧
    pathJoin (dirname "foo".toList) ((pathSplit "foo".toList).2 ++ origSuffix) =
      "foo_orig".toList ∧
    "/home/foo_orig".toList ≠ "foo_orig".toList := by decide

/-- C8 amended: for every call to `back_up_file(path, targetDir, suffix)`
with computed directory `tdv = targetDir or dirname(abspath(path))` (the
default is the directory of the ABSOLUTE form of `path`) and
`backupPath = join(tdv, filename + suffix)`: it fails without raising,
leaving the state unchanged, when the filename portion of `path` is
empty; it fails without raising, leaving the state unchanged (so neither
the backup path's existing content nor the source is modified), whenever
the link operation errors; and when the source exists and the backup path
is free it creates a hard link at `backupPath` — which then shares the
source's content — and returns `backupPath`. -/
theorem C8_back_up_file (s : Sys) (path : Str) (td : Option Str) (suffix : Str) (tdv : Str)
    (htd : (match td with | none => dirname (abspath s.cwd path) | some d => d) = tdv) :
    ((pathSplit path).2 = [] → back_up_file s path td suffix = (none, s)) ∧
    ((pathSplit path).2 ≠ [] →
      (fsLink s path (pathJoin tdv ((pathSplit path).2 ++ suffix)) = none →
        back_up_file s path td suffix = (none, s)) ∧
      (∀ i, getIno s path = some i →
        getIno s (pathJoin tdv ((pathSplit path).2 ++ suffix)) = none →
        back_up_file s path td suffix =
          (some (pathJoin tdv ((pathSplit path).2 ++ suffix)),
           { s with entries :=
              (resolveP s (pathJoin tdv ((pathSplit path).2 ++ suffix)), i) :: s.entries }) ∧
        contentAt { s with entries :=
            (resolveP s (pathJoin tdv ((pathSplit path).2 ++ suffix)), i) :: s.entries }
          (pathJoin tdv ((pathSplit path).2 ++ suffix)) = contentAt s path)) := by
  refine ⟨?_, ?_⟩
  · intro h
    simp [back_up_file, h]
  · intro h
    refine ⟨?_, ?_⟩
    · intro hl
      simp [back_up_file, htd, h, hl]
    · intro i hsrc hdst
      have hl : fsLink s path (pathJoin tdv ((pathSplit path).2 ++ suffix)) =
          some { s with entries :=
            (resolveP s (pathJoin tdv ((pathSplit path).2 ++ suffix)), i) :: s.entries } := by
        simp [fsLink, hsrc, hdst]
      refine ⟨by simp [back_up_file, htd, h, hl], ?_⟩
      simp only [contentAt, fsStat, getIno, resolveP] at hsrc ⊢
      simp [resolveP, alookup]
      rcases hh : alookup s.entries (abspath s.cwd path) with _ | j
      · rw [hh] at hsrc; exact Option.noConfusion hsrc
      · rw [hh] at hsrc
        simp [Option.some_inj.mp hsrc]

/-- C8 witness: on a concrete file the backup is created at the computed
path with the source's content; with a pre-existing file at the backup
path the call fails and leaves the state unchanged. -/
theorem C8_back_up_file_witness :
    back_up_file ⟨"/".toList, [("/d/f".toList, 0)],
        [(0, ⟨"old".toList, 10, 20, 33188⟩)], 1, 0, 0⟩
      "/d/f".toList none origSuffix =
      (some (pathJoin "/d".toList ((pathSplit "/d/f".toList).2 ++ origSuffix)),
       { cwd := "/".toList,
         entries := [("/d/f_orig".toList, 0), ("/d/f".toList, 0)],
         inodes := [(0, ⟨"old".toList, 10, 20, 33188⟩)],
         nextIno := 1, procUid := 0, procGid := 0 }) ∧
    contentAt ({ cwd := "/".toList,
                 entries := [("/d/f_orig".toList, 0), ("/d/f".toList, 0)],
                 inodes := [(0, ⟨"old".toList, 10, 20, 33188⟩)],
                 nextIno := 1, procUid := 0, procGid := 0 } : Sys)
      (pathJoin "/d".toList ((pathSplit "/d/f".toList).2 ++ origSuffix)) =
      contentAt ⟨"/".toList, [("/d/f".toList, 0)],
        [(0, ⟨"old".toList, 10, 20, 33188⟩)], 1, 0, 0⟩ "/d/f".toList ∧
    back_up_file ⟨"/".toList, [("/d/f".toList, 0), ("/d/f_orig".toList, 5)],
        [(0, ⟨"old".toList, 10, 20, 33188⟩), (5, ⟨"bak".toList, 0, 0, 33188⟩)], 6, 0, 0⟩
      "/d/f".toList none origSuffix =
      (none, ⟨"/".toList, [("/d/f".toList, 0), ("/d/f_orig".toList, 5)],
        [(0, ⟨"old".toList, 10, 20, 33188⟩), (5, ⟨"bak".toList, 0, 0, 33188⟩)], 6, 0, 0⟩) := by
  refine ⟨?_, ?_, ?_⟩
  · exact (((C8_back_up_file ⟨"/".toList, [("/d/f".toList, 0)],
        [(0, ⟨"old".toList, 10, 20, 33188⟩)], 1, 0, 0⟩
      "/d/f".toList none origSuffix "/d".toList (by decide)).2 (by decide)).2 0
      (by decide) (by decide)).1
  · exact (((C8_back_up_file ⟨"/".toList, [("/d/f".toList, 0)],
        [(0, ⟨"old".toList, 10, 20, 33188⟩)], 1, 0, 0⟩
      "/d/f".toList none origSuffix "/d".toList (by decide)).2 (by decide)).2 0
      (by decide) (by decide)).2
  · exact ((C8_back_up_file ⟨"/".toList, [("/d/f".toList, 0), ("/d/f_orig".toList, 5)],
        [(0, ⟨"old".toList, 10, 20, 33188⟩), (5, ⟨"bak".toList, 0, 0, 33188⟩)], 6, 0, 0⟩
      "/d/f".toList none origSuffix "/d".toList (by decide)).2 (by decide)).1 (by decide)

/-! ## `format_columns` claim -/

/-- Claim-side column width: the maximum stringified width of the `i`-th
cell across all rows. -/
def colWidth (rows : List (List PyVal)) (i : Nat) : Nat :=
  pyMax ((rows.filterMap fun r => r.get? i).map fun v => (pyStr v).length)

/-- Claim-side padded cell: left-justified by default, right-justified
for `">"`/`"r"` markers, centred for `"^"`/`"c"`. -/
def specPad (align : Option (List Str)) (i : Nat) (sv : Str) (w : Nat) : Str :=
  match align with
  | none => pyLjust sv w
  | some al =>
    if al = [] then pyLjust sv w
    else
      match al.get? i with
      | none => pyLjust sv w
      | some a =>
        if pyLower a = ['>'] ∨ pyLower a = ['r'] then pyRjust sv w
        else if pyLower a = ['^'] ∨ pyLower a = ['c'] then pyCenter sv w
        else pyLjust sv w

/-- Claim-side formatted line for one row: its cells padded to their
column widths and joined with exactly two spaces. -/
def specLine (rows : List (List PyVal)) (align : Option (List Str)) (r : List PyVal) : Str :=
  pyJoinSep [' ', ' ']
    (r.enum.map fun ic => specPad align ic.1 (pyStr ic.2) (colWidth rows ic.1))

theorem pyZipLen_eq {α : Type} (rows : List (List α)) (n : Nat) (hne : rows ≠ [])
    (hlen : ∀ r ∈ rows, r.length = n) : pyZipLen rows = n := by
  induction rows with
  | nil => exact absurd rfl hne
  | cons r rest ih =>
    rcases rest with _ | ⟨r2, rest2⟩
    · simpa [pyZipLen] using hlen r (by simp)
    · have h1 : r.length = n := hlen r (by simp)
      have h2 : pyZipLen (r2 :: rest2) = n := by
        apply ih (by simp)
        intro q hq
        exact hlen q (by simp [hq])
      simp [pyZipLen, h1, h2]

theorem mapM_option_eq_map {α β : Type} (l : List α) (f : α → Option β) (g : α → β)
    (h : ∀ x ∈ l, f x = some (g x)) : l.mapM f = some (l.map g) := by
  induction l with
  | nil => rfl
  | cons x xs ih =>
    rw [List.mapM_cons, h x (by simp), ih fun y hy => h y (by simp [hy])]
    rfl

theorem mem_enum_lt {α : Type} {l : List α} {ic : Nat × α} (h : ic ∈ l.enum) :
    ic.1 < l.length := by
  have h2 := List.mem_enum_iff_getElem?.mp h
  by_contra hlt
  push_neg at hlt
  rw [List.getElem?_eq_none hlt] at h2
  exact Option.noConfusion h2

theorem widths_get (rows : List (List PyVal)) (n : Nat) (i : Nat)
    (hzl : pyZipLen rows = n) (hi : i < n) :
    Option.map (fun col => pyMax (col.map fun v => (pyStr v).length)) (pyZip rows)[i]? =
      some (colWidth rows i) := by
  rw [pyZip, List.getElem?_map, List.getElem?_range (by omega)]
  simp [colWidth]

theorem formatCell_eq (rows : List (List PyVal)) (align : Option (List Str)) (n : Nat)
    (halign : align = none ∨ ∃ al, align = some al ∧ (al = [] ∨ n ≤ al.length))
    (hzl : pyZipLen rows = n) (ic : Nat × PyVal) (hi : ic.1 < n) :
    formatCell ((pyZip rows).map fun col => pyMax (col.map fun v => (pyStr v).length))
        align ic =
      some (specPad align ic.1 (pyStr ic.2) (colWidth rows ic.1)) := by
  have hw := widths_get rows n ic.1 hzl hi
  rcases halign with rfl | ⟨al, rfl, hal⟩
  · simp [formatCell, specPad, hw]
  · rcases eq_or_ne al [] with rfl | hne
    · simp [formatCell, specPad, hw]
    · rcases hal with rfl | hlen
      · exact absurd rfl hne
      · rcases hget : al[ic.1]? with _ | a
        · rw [List.getElem?_eq_none_iff] at hget
          omega
        · simp [formatCell, specPad, hw, hne, hget]
          split_ifs <;> rfl

/-- C9: for every non-empty list of rows all of the same length `n` (and
alignment markers either absent or supplied for every column),
`format_columns` returns one line per row; within each line every cell is
padded — left-justified by default, right-justified for `">"`/`"r"`,
centred for `"^"`/`"c"` — to the maximum stringified width of its column
across all rows, and the cells are joined with exactly two spaces. -/
theorem C9_format_columns (rows : List (List PyVal)) (align : Option (List Str)) (n : Nat)
    (hne : rows ≠ []) (hlen : ∀ r ∈ rows, r.length = n)
    (halign : align = none ∨ ∃ al, align = some al ∧ (al = [] ∨ n ≤ al.length)) :
    format_columns rows align = some (rows.map (specLine rows align)) := by
  have hzl : pyZipLen rows = n := pyZipLen_eq rows n hne hlen
  unfold format_columns
  apply mapM_option_eq_map
  intro row hrow
  have hrlen : row.length = n := hlen row hrow
  have hin : row.enum.mapM (formatCell
      ((pyZip rows).map fun col => pyMax (col.map fun v => (pyStr v).length)) align) =
      some (row.enum.map fun ic => specPad align ic.1 (pyStr ic.2) (colWidth rows ic.1)) := by
    apply mapM_option_eq_map
    intro ic hic
    have hlt := mem_enum_lt hic
    exact formatCell_eq rows align n halign hzl ic (by omega)
  rw [hin]
  simp [specLine]

/-- C9 witness: a concrete two-row table with right and centre markers. -/
theorem C9_format_columns_witness :
    format_columns [[PyVal.str "ab".toList, PyVal.int 5],
        [PyVal.str "c".toList, PyVal.int 123]]
      (some [">".toList, "^".toList]) =
      some ([[PyVal.str "ab".toList, PyVal.int 5],
        [PyVal.str "c".toList, PyVal.int 123]].map
          (specLine [[PyVal.str "ab".toList, PyVal.int 5],
            [PyVal.str "c".toList, PyVal.int 123]] (some [">".toList, "^".toList]))) :=
  C9_format_columns _ _ 2 (by decide) (by decide)
    (Or.inr ⟨[">".toList, "^".toList], rfl, Or.inr (by decide)⟩)

/-! ## `is_valid_hostname` claim -/

theorem mem_of_getLast? {α : Type} {l : List α} {a : α} (h : l.getLast? = some a) :
    a ∈ l := by
  induction l with
  | nil => simp [List.getLast?] at h
  | cons x xs ih =>
    rcases xs with _ | ⟨y, ys⟩
    · simp [List.getLast?] at h
      simp [h]
    · rw [List.getLast?_cons_cons] at h
      simp [ih h]

theorem all_congr_eq {α : Type} (l : List α) (p q : α → Bool) (h : ∀ x, p x = q x) :
    l.all p = l.all q := by
  induction l with
  | nil => rfl
  | cons x xs ih => simp [List.all_cons, h, ih]

/-- The loop-body label check agrees with the claim-side label predicate. -/
theorem hostLabelCheck_eq (label : Str) : hostLabelCheck label = specLabelOK label := by
  rw [Bool.eq_iff_iff]
  simp [hostLabelCheck, specLabelOK, isDisallowedChar, Nat.one_le_iff_ne_zero, not_lt,
    and_assoc]
  intro _ _ _ _
  refine forall_congr' fun x => forall_congr' fun _ => ?_
  cases hxu : x.isUpper <;> cases hxl : x.isLower <;> cases hxd : x.isDigit <;>
    simp [hxu, hxl, hxd]

theorem pySplitChar_ne_nil (c : Char) (h : Str) : pySplitChar c h ≠ [] := by
  cases h with
  | nil => simp [pySplitChar]
  | cons a t =>
    simp only [pySplitChar]
    split
    · simp
    · split <;> simp

/-- Every character of a string is either the separator or belongs to one
of the pieces of the split. -/
theorem mem_split_of_mem (c : Char) (h : Str) :
    ∀ a ∈ h, a = c ∨ ∃ lab ∈ pySplitChar c h, a ∈ lab := by
  induction h with
  | nil => simp
  | cons x t ih =>
    intro a ha
    rcases List.mem_cons.mp ha with rfl | hat
    · by_cases hx : a = c
      · exact Or.inl hx
      · right
        rcases hsp : pySplitChar c t with _ | ⟨l, ls⟩
        · exact absurd hsp (pySplitChar_ne_nil c t)
        · refine ⟨a :: l, ?_, by simp⟩
          simp [pySplitChar, hx, hsp]
    · rcases ih a hat with rfl | ⟨lab, hlab, halab⟩
      · exact Or.inl rfl
      · right
        by_cases hx : x = c
        · exact ⟨lab, by simp [pySplitChar, hx, hlab], halab⟩
        · rcases hsp : pySplitChar c t with _ | ⟨l, ls⟩
          · exact absurd hsp (pySplitChar_ne_nil c t)
          · rw [hsp] at hlab
            rcases List.mem_cons.mp hlab with rfl | hlab2
            · exact ⟨x :: lab, by simp [pySplitChar, hx, hsp], by simp [halab]⟩
            · exact ⟨lab, by simp [pySplitChar, hx, hsp, hlab2], halab⟩

/-- If every label passes the loop check, every character of the hostname
is a dot or an allowed character. -/
theorem labels_chars (h : Str)
    (hall : (pySplitChar '.' h).all hostLabelCheck = true) :
    ∀ a ∈ h, a = '.' ∨ (a.isUpper || a.isLower || a.isDigit || a == '-') = true := by
  intro a ha
  rcases mem_split_of_mem '.' h a ha with rfl | ⟨lab, hlab, halab⟩
  · exact Or.inl rfl
  · right
    have hcheck := List.all_eq_true.mp hall lab hlab
    rw [hostLabelCheck_eq] at hcheck
    simp only [specLabelOK, Bool.and_eq_true] at hcheck
    exact List.all_eq_true.mp hcheck.2 a halab

/-- If every label passes the loop check the hostname is non-empty. -/
theorem labels_ne_nil (h : Str)
    (hall : (pySplitChar '.' h).all hostLabelCheck = true) : h ≠ [] := by
  intro he
  rw [he] at hall
  exact absurd hall (by decide)

/-- Under passing label checks, the all-numeric regex test coincides with
"every character is a digit or a dot". -/
theorem reMatch_eq_allDD (h : Str)
    (hall : (pySplitChar '.' h).all hostLabelCheck = true) :
    reMatchNumDot h = h.all (fun c => c.isDigit || c == '.') := by
  have hchars := labels_chars h hall
  have hne := labels_ne_nil h hall
  by_cases hd : h.all (fun c => c.isDigit || c == '.') = true
  · rw [hd]
    have ht : h.takeWhile (fun c => c.isDigit || c == '.') = h :=
      List.takeWhile_eq_self_iff.mpr (fun x hx => List.all_eq_true.mp hd x hx)
    simp [reMatchNumDot, ht, hne]
  · rw [Bool.not_eq_true] at hd
    rw [hd]
    have hlast : h.getLast? ≠ some '\n' := by
      intro hc
      rcases hchars '\n' (mem_of_getLast? hc) with h1 | h1
      · exact absurd h1 (by decide)
      · simp [Char.isUpper, Char.isLower, Char.isDigit] at h1
    have htlen : (h.takeWhile (fun c => c.isDigit || c == '.')).length ≠ h.length := by
      intro hc
      have hpre : h.takeWhile (fun c => c.isDigit || c == '.') = h :=
        (List.takeWhile_prefix _).eq_of_length hc
      have : h.all (fun c => c.isDigit || c == '.') = true :=
        List.all_eq_true.mpr fun x hx => List.takeWhile_eq_self_iff.mp hpre x hx
      rw [this] at hd
      exact Bool.noConfusion hd
    simp [reMatchNumDot, htlen, hlast]

/-- C10: `is_valid_hostname` agrees with the claim's characterisation on
EVERY string: after removing at most one trailing dot, the string is
valid iff it is at most 253 characters, not composed entirely of digits
and dots, and every dot-separated label has 1–63 characters, has no
leading or trailing hyphen, and contains only ASCII letters, digits, and
hyphens. -/
theorem C10_hostname (h : Str) : is_valid_hostname h = spec_valid_hostname h := by
  unfold is_valid_hostname spec_valid_hostname
  by_cases hlen : (stripOneDot h).length > 253
  · have hgt : ¬ (stripOneDot h).length ≤ 253 := by omega
    simp [hlen, hgt]
  · have hle : (stripOneDot h).length ≤ 253 := by omega
    rw [if_neg hlen]
    have hcong := all_congr_eq (pySplitChar '.' (stripOneDot h)) hostLabelCheck specLabelOK
      hostLabelCheck_eq
    by_cases hall : (pySplitChar '.' (stripOneDot h)).all hostLabelCheck = true
    · rw [reMatch_eq_allDD _ hall]
      have hspec : (pySplitChar '.' (stripOneDot h)).all specLabelOK = true := by
        rw [← hcong]; exact hall
      by_cases hdd : (stripOneDot h).all (fun c => c.isDigit || c == '.') = true
      · simp [hdd, hle, hspec]
      · rw [Bool.not_eq_true] at hdd
        simp [hdd, hle, hspec, hall]
    · rw [Bool.not_eq_true] at hall
      have hspec : (pySplitChar '.' (stripOneDot h)).all specLabelOK = false := by
        rw [← hcong]; exact hall
      cases hre : reMatchNumDot (stripOneDot h) <;> simp [hall, hspec]
